import Mathlib

/-!
Verification development for the InVEST model execution and data-staging
framework: a shallow embedding of `src/natcap/invest/scenarios.py`
(scenario packaging and unpacking) and `src/natcap/invest/cli.py`
(CLI dispatch and model-name resolution), with theorems settling the
specified behavioural properties.
-/

namespace Invest

/-! ## Paths and bytes

Paths are POSIX strings; file contents are byte lists. -/

abbrev Path := String
abbrev Bytes := List Nat

/-- Models `os.path.isabs` on POSIX: the path begins with a slash. -/
def isAbs (p : String) : Bool :=
  match p.data with
  | [] => false
  | c :: _ => c = '/'

/-- Helper for `basename`: keep the characters after the last slash. -/
def basenameAux : List Char → List Char → List Char
  | [], acc => acc
  | c :: rest, acc => basenameAux rest (if c = '/' then [] else acc ++ [c])

/-- Models `os.path.basename`: the component after the final slash
(empty when the path ends in a slash). -/
def basename (p : String) : String :=
  ⟨basenameAux p.data []⟩

/-- Models `os.path.join a b` on POSIX for a directory `a` with no trailing
slash: an absolute second argument discards the first. -/
def pjoin (a b : String) : String :=
  if isAbs b then b else a ++ "/" ++ b

/-- Models `os.path.abspath` relative to the process working directory. -/
def abspath (cwd p : String) : String :=
  if isAbs p then p else pjoin cwd p

/-! ## The JSON-like argument values of a ParameterSet

`scenarios.format_dictionary` walks dictionaries whose values are strings,
scalars, nested dictionaries and lists.  The dictionary and list layers are
mutual inductives (rather than `List` nesting) so that all recursions are
structural and kernel-reducible. -/

mutual
inductive Value where
  | vstr : String → Value
  | vint : Int → Value
  | vbool : Bool → Value
  | vdict : Entries → Value
  | vlist : Items → Value

inductive Entries where
  | nil : Entries
  | cons : String → Value → Entries → Entries

inductive Items where
  | nil : Items
  | cons : Value → Items → Items
end

/-- Dictionary lookup on an argument mapping (Python dict indexing). -/
def lookupE : Entries → String → Option Value
  | .nil, _ => none
  | .cons k v rest, key => if k = key then some v else lookupE rest key

/-- Dictionary assignment `d[k] = v`: replace the first binding of `k`,
or append a new binding when `k` is absent. -/
def setE : Entries → String → Value → Entries
  | .nil, key, val => .cons key val .nil
  | .cons k v rest, key, val =>
      if k = key then .cons k val rest else .cons k v (setE rest key val)

/-- The top-level keys of an argument mapping, in order. -/
def keysE : Entries → List String
  | .nil => []
  | .cons k _ rest => k :: keysE rest

/-- Append two argument mappings (concatenation of their bindings). -/
def appendE : Entries → Entries → Entries
  | .nil, e => e
  | .cons k v rest, e => .cons k v (appendE rest e)

/-- Build an argument mapping from a list of key/value pairs. -/
def ofPairs : List (String × Value) → Entries
  | [] => .nil
  | (k, v) :: rest => .cons k v (ofPairs rest)

/-! ## Association lists keyed by strings

Used for the de-duplication record `files_found` and for the staging
directory contents. -/

/-- First-match lookup in an association list. -/
def alookup {α : Type} : List (String × α) → String → Option α
  | [], _ => none
  | (k, v) :: rest, key => if k = key then some v else alookup rest key

/-- Overwrite-or-append on an association list: replace the first binding
of `k` (the semantics of `shutil.copyfile` onto an existing destination
name), or append when `k` is absent. -/
def aset {α : Type} : List (String × α) → String → α → List (String × α)
  | [], key, val => [(key, val)]
  | (k, v) :: rest, key, val =>
      if k = key then (k, val) :: rest else (k, v) :: aset rest key val

/-! ## Filesystem model

`collect_parameters` classifies each string parameter by probing it with
GDAL and OGR and with `os.path.isfile` / `os.path.isdir` (lines 144-224 of
scenarios.py).  The embedding records the outcome of that probing as a
`FileKind` assigned by the filesystem:

* `raster`: `gdal.Open` succeeds;
* `vector`: `ogr.Open` succeeds and the driver is not `CSV`;
* `csvVector`: `ogr.Open` succeeds with the `CSV` driver (a regular file);
* `plainFile`: neither opens it, `os.path.isfile` holds;
* `directory`: `os.path.isdir` holds;
* `missing`: the string does not name anything on disk.

`content` gives the bytes of a file (for a directory or a multi-file
dataset, an abstract serialization of its tree). -/

inductive FileKind where
  | raster | vector | csvVector | plainFile | directory | missing
deriving DecidableEq, Repr

structure FS where
  kind : Path → FileKind
  content : Path → Bytes

/-! ## `scenarios.collect_parameters` (lines 100-268)

The archiving walk.  `CollectCtx` fixes the ambient filesystem, the
process working directory, the `tempfile.mkdtemp` temp workspace path and
the seeded 6-character suffix produced by `make_random_dir` (deterministic
in its seed string; the exact characters never matter here).

`CollectState` is the mutable state of one `collect_parameters` call:

* `filesFound` is the closure-local `files_found` dictionary mapping
  `os.path.abspath(parameter)` to the previously returned staged path;
* `staged` maps a path relative to the temp workspace to the bytes copied
  there (directories and multi-file datasets appear as single entries for
  their root; files nested inside such staged directories are not
  resolved individually by this model);
* `copyLog` records, in order, each source path physically copied into
  the staging area (one entry per `shutil.copyfile` / `copytree` /
  `driver.CopyDataSource` call);
* `counter` numbers the fresh `tempfile.mkdtemp` subdirectories. -/

structure CollectCtx where
  fs : FS
  cwd : Path
  tmp : Path
  randDir : String → String

structure CollectState where
  filesFound : List (Path × Path)
  staged : List (Path × Bytes)
  copyLog : List Path
  counter : Nat

/-- The initial state of one `collect_parameters` call: `files_found`
starts empty (line 173), the staging directory holds only the fresh
`data/` subdirectory. -/
def initState : CollectState :=
  { filesFound := [], staged := [], copyLog := [], counter := 0 }

/-- Embeds the closure `get_if_file` (scenarios.py lines 175-224) together
with the classification closure `get_multi_part` (lines 144-170) it calls.

Branches, in source order:

* lines 176-182: a previously seen `os.path.abspath(parameter)` returns
  the recorded staged path without copying anything again;
* raster (line 148 `gdal.Open` succeeds → `get_multi_part_gdal`,
  lines 114-132): a fresh `raster_` directory is created under `data/`,
  but `driver.CreateCopy(new_path, new_path)` passes the *string*
  `new_path` where GDAL expects a source `Dataset`, raising `TypeError`;
  the `except TypeError` at line 214 swallows it, `return_path` stays
  `None`, so the parameter is returned unchanged, `files_found` is not
  updated, and only the empty staging directory remains;
* vector with a non-CSV driver (lines 155-169 → `get_multi_part_ogr`,
  lines 134-142): `driver.CopyDataSource(vector, new_path)` copies the
  dataset into a fresh `vector_` directory under `data/`; the value
  returned (and recorded) is the *absolute* `tempfile.mkdtemp` path;
* CSV-driver vector sources fall through `get_multi_part` (line 159) and,
  being regular files, take the single-file branch;
* single file (lines 192-197): `shutil.copyfile` to
  `temp_workspace/basename`, overwriting any earlier staged file of the
  same basename; the returned value is the bare basename;
* directory (lines 199-207): `make_random_dir(temp_workspace, basename,
  "data_", False)` names a directory deterministically from the basename
  seed and `shutil.copytree` copies the tree; the returned value is the
  absolute path inside the temp workspace.  (When the destination already
  exists — two distinct directories sharing a basename — the real
  `copytree` raises `OSError`; no claim touches that path and the model
  overwrites instead);
* otherwise (lines 209-213): the value does not exist on disk, an error
  is logged and the parameter is returned unchanged. -/
def getIfFile (C : CollectCtx) (st : CollectState) (s : String) :
    String × CollectState :=
  match alookup st.filesFound (abspath C.cwd s) with
  | some uri => (uri, st)
  | none =>
    match C.fs.kind s with
    | .raster =>
        (s, { st with
                staged := aset st.staged ("data/raster_" ++ Nat.repr st.counter) [],
                counter := st.counter + 1 })
    | .vector =>
        let rel := "data/vector_" ++ Nat.repr st.counter
        let ret := C.tmp ++ "/" ++ rel
        (ret, { filesFound := aset st.filesFound (abspath C.cwd s) ret,
                staged := aset st.staged rel (C.fs.content s),
                copyLog := st.copyLog ++ [s],
                counter := st.counter + 1 })
    | .csvVector =>
        let b := basename s
        (b, { st with
                filesFound := aset st.filesFound (abspath C.cwd s) b,
                staged := aset st.staged b (C.fs.content s),
                copyLog := st.copyLog ++ [s] })
    | .plainFile =>
        let b := basename s
        (b, { st with
                filesFound := aset st.filesFound (abspath C.cwd s) b,
                staged := aset st.staged b (C.fs.content s),
                copyLog := st.copyLog ++ [s] })
    | .directory =>
        let name := "data_" ++ C.randDir (basename s)
        let ret := C.tmp ++ "/" ++ name
        (ret, { st with
                  filesFound := aset st.filesFound (abspath C.cwd s) ret,
                  staged := aset st.staged name (C.fs.content s),
                  copyLog := st.copyLog ++ [s] })
    | .missing => (s, st)

/-! The recursive walk of `format_dictionary` (lines 284-323) with the
type-dispatch table of `collect_parameters` (lines 247-250): strings go
through `get_if_file`, dictionaries and lists are recursed into, every
other scalar is returned verbatim, threading the collection state from
value to value in iteration order. -/

mutual
def collectValue (C : CollectCtx) : Value → CollectState → Value × CollectState
  | .vstr s, st =>
      ((Value.vstr (getIfFile C st s).1), (getIfFile C st s).2)
  | .vint n, st => (.vint n, st)
  | .vbool b, st => (.vbool b, st)
  | .vdict es, st =>
      ((Value.vdict (collectEntries C es st).1), (collectEntries C es st).2)
  | .vlist xs, st =>
      ((Value.vlist (collectItems C xs st).1), (collectItems C xs st).2)

def collectEntries (C : CollectCtx) : Entries → CollectState → Entries × CollectState
  | .nil, st => (.nil, st)
  | .cons k v rest, st =>
      ((Entries.cons k (collectValue C v st).1
          (collectEntries C rest (collectValue C v st).2).1),
       (collectEntries C rest (collectValue C v st).2).2)

def collectItems (C : CollectCtx) : Items → CollectState → Items × CollectState
  | .nil, st => (.nil, st)
  | .cons v rest, st =>
      ((Items.cons (collectValue C v st).1
          (collectItems C rest (collectValue C v st).2).1),
       (collectItems C rest (collectValue C v st).2).2)
end

/-- The reserved keys deleted before the walk (lines 233-245), in loop
order: `workspace_dir` (not tracked for restoration), `suffix` and
`results_suffix` (tracked). -/
def reservedKeys : List String := ["workspace_dir", "suffix", "results_suffix"]

/-- Remove the reserved keys from the top level of the argument mapping
(the `del parameters[key]` loop; dictionary keys are unique, so removing
every binding of each reserved key is the same operation). -/
def stripReserved : Entries → Entries
  | .nil => .nil
  | .cons k v rest =>
      if k ∈ reservedKeys then stripReserved rest
      else .cons k v (stripReserved rest)

/-- The `ignored_keys` list (lines 233-245): the original bindings of
`suffix` and `results_suffix`, in that order, when present.
`workspace_dir` has `restore_key = False` and is never tracked. -/
def reservedPairs (p : Entries) : List (String × Value) :=
  (match lookupE p "suffix" with
   | some v => [("suffix", v)]
   | none => []) ++
  (match lookupE p "results_suffix" with
   | some v => [("results_suffix", v)]
   | none => [])

/-- The archive produced by one `collect_parameters` call: the contents
of `parameters.json` (the rewritten argument mapping), the staged data
files, and the log of physical copies made while staging. -/
structure ArchiveModel where
  args : Entries
  staged : List (Path × Bytes)
  copyLog : List Path

/-- Embeds `collect_parameters` (scenarios.py lines 100-268): delete the
reserved keys remembering `suffix`/`results_suffix` for restoration, walk
the remaining argument tree rewriting file references to staged paths,
restore the tracked reserved keys, and write the result as
`parameters.json` next to the staged data. -/
def collect_parameters (C : CollectCtx) (parameters : Entries) : ArchiveModel :=
  let ignored := reservedPairs parameters
  let stripped := stripReserved parameters
  let walked := collectEntries C stripped initState
  let newArgs := ignored.foldl (fun acc kv => setE acc kv.1 kv.2) walked.1
  { args := newArgs, staged := walked.2.staged, copyLog := walked.2.copyLog }

/-! ## `scenarios.extract_parameters_archive` (lines 326-373)

The archive is untarred into `input_folder`; the extracted tree therefore
holds exactly the staged entries plus the `parameters.json` document
written at line 259-262 (which overwrites any staged file of that name)
and the `data/` directory created at line 112. -/

/-- Models `os.path.exists(os.path.join(input_folder, s))` against an
extracted archive: an absolute `s` ignores the join and is tested against
the ambient filesystem; a relative `s` is tested against the extracted
tree (`parameters.json`, `data/`, and the staged entries; paths nested
inside a staged directory are not resolved individually). -/
def extractedExists (fs : FS) (A : ArchiveModel) (s : String) : Bool :=
  if isAbs s then decide (fs.kind s ≠ .missing)
  else if s = "parameters.json" ∨ s = "data" then true
  else (alookup A.staged s).isSome

/-- Embeds the closure `_get_if_uri` (lines 349-364): a nonempty string
whose join with the input folder exists on disk is rewritten to that
joined path; everything else is returned unchanged. -/
def getIfUri (fs : FS) (A : ArchiveModel) (inputFolder : Path) (s : String) :
    String :=
  if s ≠ "" ∧ extractedExists fs A s then pjoin inputFolder s else s

/-! The stateless extraction walk: `format_dictionary` with
`_get_if_uri` on strings (lines 366-370). -/

mutual
def mapStringsV (f : String → String) : Value → Value
  | .vstr s => .vstr (f s)
  | .vint n => .vint n
  | .vbool b => .vbool b
  | .vdict es => .vdict (mapStringsE f es)
  | .vlist xs => .vlist (mapStringsI f xs)

def mapStringsE (f : String → String) : Entries → Entries
  | .nil => .nil
  | .cons k v rest => .cons k (mapStringsV f v) (mapStringsE f rest)

def mapStringsI (f : String → String) : Items → Items
  | .nil => .nil
  | .cons v rest => .cons (mapStringsV f v) (mapStringsI f rest)
end

/-- Embeds `extract_parameters_archive` (lines 326-373): extract the
archive into `input_folder`, load `parameters.json`, rewrite every string
that resolves under the input folder to the joined absolute path, then
force `workspace_dir` to the caller-supplied workspace. -/
def extract_parameters_archive (fs : FS) (workspace_dir : Path)
    (A : ArchiveModel) (inputFolder : Path) : Entries :=
  setE (mapStringsE (getIfUri fs A inputFolder) A.args)
    "workspace_dir" (.vstr workspace_dir)

/-! ## The strings occurring in an argument tree -/

mutual
def stringsV : Value → List String
  | .vstr s => [s]
  | .vint _ => []
  | .vbool _ => []
  | .vdict es => stringsE es
  | .vlist xs => stringsI xs

def stringsE : Entries → List String
  | .nil => []
  | .cons _ v rest => stringsV v ++ stringsE rest

def stringsI : Items → List String
  | .nil => []
  | .cons v rest => stringsV v ++ stringsI rest
end

/-! ## The model catalog and name resolution (`cli.py`)

`_MODEL_UIS` (cli.py lines 28-149), in source order: identifier, pyname,
optional GUI class reference, aliases. -/

structure UIMeta where
  pyname : String
  gui : Option String
  aliases : List String

def modelUIs : List (String × UIMeta) :=
  [("carbon", ⟨"natcap.invest.carbon", some "carbon.Carbon", []⟩),
   ("coastal_blue_carbon",
    ⟨"natcap.invest.coastal_blue_carbon.coastal_blue_carbon",
     some "cbc.CoastalBlueCarbon", ["cbc"]⟩),
   ("coastal_blue_carbon_preprocessor",
    ⟨"natcap.invest.coastal_blue_carbon.preprocessor",
     some "cbc.CoastalBlueCarbonPreprocessor", ["cbc_pre"]⟩),
   ("coastal_vulnerability",
    ⟨"natcap.invest.coastal_vulnerability.coastal_vulnerability",
     some "cv.CoastalVulnerability", ["cv"]⟩),
   ("crop_production_percentile",
    ⟨"natcap.invest.crop_production_percentile",
     some "crop_production.CropProductionPercentile", ["cpp"]⟩),
   ("crop_production_regression",
    ⟨"natcap.invest.crop_production_regression",
     some "crop_production.CropProductionRegression", ["cpr"]⟩),
   ("delineateit",
    ⟨"natcap.invest.routing.delineateit", some "routing.Delineateit", []⟩),
   ("finfish_aquaculture",
    ⟨"natcap.invest.finfish_aquaculture.finfish_aquaculture",
     some "finfish.FinfishAquaculture", []⟩),
   ("fisheries",
    ⟨"natcap.invest.fisheries.fisheries", some "fisheries.Fisheries", []⟩),
   ("fisheries_hst",
    ⟨"natcap.invest.fisheries.fisheries_hst",
     some "fisheries.FisheriesHST", []⟩),
   ("forest_carbon_edge_effect",
    ⟨"natcap.invest.forest_carbon_edge_effect",
     some "forest_carbon.ForestCarbonEdgeEffect", ["fc"]⟩),
   ("globio", ⟨"natcap.invest.globio", some "globio.GLOBIO", []⟩),
   ("habitat_quality",
    ⟨"natcap.invest.habitat_quality", some "habitat_quality.HabitatQuality",
     ["hq"]⟩),
   ("habitat_risk_assessment",
    ⟨"natcap.invest.habitat_risk_assessment.hra",
     some "hra.HabitatRiskAssessment", ["hra"]⟩),
   ("habitat_risk_assessment_preprocessor",
    ⟨"natcap.invest.habitat_risk_assessment.hra_preprocessor",
     some "hra.HRAPreprocessor", ["hra_pre"]⟩),
   ("hydropower_water_yield",
    ⟨"natcap.invest.hydropower.hydropower_water_yield",
     some "hydropower.HydropowerWaterYield", ["hwy"]⟩),
   ("ndr", ⟨"natcap.invest.ndr.ndr", some "ndr.Nutrient", []⟩),
   ("overlap_analysis",
    ⟨"natcap.invest.overlap_analysis.overlap_analysis",
     some "overlap_analysis.OverlapAnalysis", ["oa"]⟩),
   ("overlap_analysis_mz",
    ⟨"natcap.invest.overlap_analysis.overlap_analysis_mz",
     some "overlap_analysis.OverlapAnalysisMZ", ["oa_mz"]⟩),
   ("pollination",
    ⟨"natcap.invest.pollination", some "pollination.Pollination", []⟩),
   ("recreation",
    ⟨"natcap.invest.recreation.recmodel_client",
     some "recreation.Recreation", []⟩),
   ("routedem",
    ⟨"natcap.invest.routing.routedem", some "routing.RouteDEM", []⟩),
   ("scenario_generator",
    ⟨"natcap.invest.scenario_generator.scenario_generator",
     some "scenario_gen.ScenarioGenerator", ["sg"]⟩),
   ("scenario_generator_proximity",
    ⟨"natcap.invest.scenario_gen_proximity",
     some "scenario_gen.ScenarioGenProximity", ["sgp"]⟩),
   ("scenic_quality",
    ⟨"natcap.invest.scenic_quality.scenic_quality",
     some "scenic_quality.ScenicQuality", ["sq"]⟩),
   ("sdr", ⟨"natcap.invest.sdr", some "sdr.SDR", []⟩),
   ("seasonal_water_yield",
    ⟨"natcap.invest.seasonal_water_yield.seasonal_water_yield",
     some "seasonal_water_yield.SeasonalWaterYield", ["swy"]⟩),
   ("wind_energy",
    ⟨"natcap.invest.wind_energy.wind_energy", some "wind_energy.WindEnergy",
     []⟩),
   ("wave_energy",
    ⟨"natcap.invest.wave_energy.wave_energy", some "wave_energy.WaveEnergy",
     []⟩),
   ("habitat_suitability",
    ⟨"natcap.invest.habitat_suitability", none, ["hs"]⟩)]

/-- Lexicographic comparison of character lists by Unicode code point. -/
def strLeAux : List Char → List Char → Bool
  | [], _ => true
  | _ :: _, [] => false
  | c :: cs, d :: ds =>
      if c.val < d.val then true
      else if d.val < c.val then false
      else strLeAux cs ds

/-- Lexicographic string order by Unicode code point (Python `sorted` on
`str`). -/
def strLe (a b : String) : Bool :=
  strLeAux a.data b.data

def insertSorted (x : String) : List String → List String
  | [] => [x]
  | y :: ys => if strLe x y then x :: y :: ys else y :: insertSorted x ys

def sortStrings (l : List String) : List String :=
  l.foldr insertSorted []

/-- Models `list_models()` (cli.py lines 197-198): the catalog keys,
sorted. -/
def list_models : List String :=
  sortStrings (modelUIs.map Prod.fst)

/-- Models `model.startswith(values)` (Python `str.startswith`). -/
def strBeginsWith (s pre : String) : Bool :=
  pre.data.isPrefixOf s.data

/-- The `known_aliases` map of `SelectModelAction` (cli.py lines 257-263):
the catalog model owning the given alias. -/
def aliasTarget (token : String) : Option String :=
  match modelUIs.find? (fun kv => token ∈ kv.2.aliases) with
  | some kv => some kv.1
  | none => none

/-- The outcome of `SelectModelAction.__call__` (cli.py lines 247-285). -/
inductive ModelResolution where
  | noModel : ModelResolution
  | selected : String → ModelResolution
  | unknownModel : String → ModelResolution
  | ambiguousModel : List String → ModelResolution
deriving DecidableEq, Repr

/-- Embeds `SelectModelAction.__call__` (cli.py lines 247-285): an empty
token prints usage and exits cleanly; otherwise try, in order, a unique
identifier with the token as prefix, a unique exact identifier match, a
known alias; then report an unknown model when there were no prefix
matches, and otherwise an ambiguous token listing every prefix match. -/
def selectModel (values : String) : ModelResolution :=
  if values = "" then .noModel
  else
    let matching := list_models.filter (fun m => strBeginsWith m values)
    let exact := list_models.filter (fun m => m = values)
    if matching.length = 1 then .selected (matching.headD "")
    else if exact.length = 1 then .selected (exact.headD "")
    else
      match aliasTarget values with
      | some m => .selected m
      | none =>
          if matching.length = 0 then .unknownModel values
          else .ambiguousModel matching

/-! ## The headless dispatcher `main()` (cli.py lines 309-521) -/

structure ParamSet where
  name : String
  args : Entries

inductive ParamSetLoadError where
  | notFound | corrupt
deriving DecidableEq, Repr

/-- The observable events of one `main()` run, in order. -/
inductive RunEvent where
  | importedModel : String → RunEvent
  | readParamSet : Option String → RunEvent
  | calledValidate : RunEvent
  | loggedValidationWarnings : List String → RunEvent
  | loggedMissingValidateWarning : RunEvent
  | calledExecute : RunEvent
deriving DecidableEq, Repr

/-- How one `main()` run ends: `parser.exit`/`return` with a code and
message, an error condition surfaced out of the run, falling off the end
(implicit exit 0), or the interactive GUI branch (out of scope here). -/
inductive RunOutcome where
  | exited : Nat → String → RunOutcome
  | failed : String → RunOutcome
  | finished : RunOutcome
  | guiBranch : RunOutcome
deriving DecidableEq, Repr

structure RunResult where
  outcome : RunOutcome
  events : List RunEvent

/-- The parsed command line relevant to headless dispatch. `model` is the
identifier resolved by `SelectModelAction`. -/
structure CliArgs where
  model : String
  headless : Bool
  scenario : Option String
  workspace : Option String
  overwrite : Bool
  noValidateGiven : Bool

/-- The ambient process environment of one `main()` run. `modelValidate`
is the `validate` function defined (or not) by the imported model module;
`promptAnswerNo` is the final answer of the interactive y/n loop;
`scenarioFile` resolves a scenario reference to its ParameterSet. -/
structure CliEnv where
  uiImportable : Bool
  cwd : Path
  pathExists : Path → Bool
  listdirNonempty : Path → Bool
  stdoutIsTty : Bool
  promptAnswerNo : Bool
  scenarioFile : String → Option ParamSet
  modelValidate : Option (Entries → List String)

/-- Modelled from the spec: `scenarios.read_parameter_set` is invoked at
cli.py line 427 but is not defined in the scenarios module of this source
snapshot.  Spec section 4.3 gives `read_parameter_set(path) ->
ParameterSet` and says reading a malformed or missing file fails with a
`CorruptParameterSet` / `NotFound` condition, not a partial ParameterSet;
spec section 7 says these conditions are fatal for the triggering
operation and surfaced directly.  An absent scenario reference is a
missing file: `NotFound`. -/
def read_parameter_set (env : CliEnv) :
    Option String → Except ParamSetLoadError ParamSet
  | none => .error .notFound
  | some ref =>
      match env.scenarioFile ref with
      | some ps => .ok ps
      | none => .error .notFound

/-- Models the argparse declaration of the `no-validate` flag `-n`
(cli.py lines 369-372): `action='store_true'` with `dest='validate'` and
`default=True`.  Storing `True` into a destination whose default is
already `True` leaves `args.validate` equal to `True` whether or not the
flag was passed. -/
def parsedValidate (_noValidateFlagGiven : Bool) : Bool := true

/-- Models `getattr(target_mod, 'validate')` at cli.py lines 451-452.
`target_mod` is the *string* `_MODEL_UIS[args.model].pyname` bound at
line 422 (the imported module object is the separate `model_module`
variable); a Python `str` has no `validate` attribute, so this lookup
raises `AttributeError` for every model and the except-branch at line 453
runs instead.  The module-level `validate` of the model is never
consulted. -/
def strGetattrValidate : Option (Entries → List String) := none

/-- The validation step, cli.py lines 446-460: when `args.validate` is
false, log and skip; otherwise attempt the attribute lookup, log the
missing-validation warning on `AttributeError`, and finally log any
nonempty warning list. -/
def validationEvents (args : CliArgs) (psArgs : Entries) : List RunEvent :=
  if parsedValidate args.noValidateGiven = false then []
  else
    match strGetattrValidate with
    | some f =>
        [RunEvent.calledValidate] ++
          (if f psArgs ≠ [] then [RunEvent.loggedValidationWarnings (f psArgs)]
           else [])
    | none => [RunEvent.loggedMissingValidateWarning]

/-- Lines 492-495: backfill `workspace_dir` when absent, then invoke the
model's `execute`. -/
def finishExecute (psArgs : Entries) (wsCheck : Path) (evs : List RunEvent) :
    RunResult :=
  let _argsForExecute :=
    match lookupE psArgs "workspace_dir" with
    | none => setE psArgs "workspace_dir" (.vstr wsCheck)
    | some _ => psArgs
  { outcome := .finished, events := evs ++ [RunEvent.calledExecute] }

/-- Lines 446-495 of the headless branch, after the workspace has been
resolved.  `cliWorkspace` is `args.workspace` as parsed (before the
line 462-463 default to `os.getcwd()`).  Note the overwrite check at
lines 467-469 tests `args.workspace` — the raw command-line value, or the
current directory when none was given — not the workspace resolved from
the ParameterSet. -/
def afterWorkspace (env : CliEnv) (args : CliArgs) (psArgs : Entries)
    (cliWorkspace : Option String) (evs : List RunEvent) : RunResult :=
  let evs2 := evs ++ validationEvents args psArgs
  let wsCheck := match cliWorkspace with
                 | some w => w
                 | none => env.cwd
  if env.pathExists wsCheck = true ∧ env.listdirNonempty wsCheck = true ∧
      args.overwrite = false then
    let denied := if env.stdoutIsTty = false then true else env.promptAnswerNo
    if denied then
      { outcome := .exited 2
          "Use --workspace to define an alternate workspace.  Aborting.",
        events := evs2 }
    else finishExecute psArgs wsCheck evs2
  else finishExecute psArgs wsCheck evs2

/-- Embeds `main()` (cli.py lines 309-521) from the point where arguments
have been parsed: the UI-toolkit import guard (lines 407-418, `return 3`
on `ImportError`), then the headless branch — import the model module
(lines 421-425), load the ParameterSet (line 427), resolve the workspace
preferring the command line over the ParameterSet and exiting 3 when
neither defines one (lines 429-441), validate, prompt about overwriting,
and execute (lines 443-495).  The interactive branch (lines 496-517) is
out of scope and collapsed to `guiBranch`. -/
def mainRun (env : CliEnv) (args : CliArgs) : RunResult :=
  if env.uiImportable = false then
    { outcome := .exited 3 "Error: ui not installed", events := [] }
  else if args.headless then
    match alookup modelUIs args.model with
    | none => { outcome := .failed "KeyError", events := [] }
    | some meta =>
      let evs1 := [RunEvent.importedModel meta.pyname,
                   RunEvent.readParamSet args.scenario]
      match read_parameter_set env args.scenario with
      | .error .notFound =>
          { outcome := .failed "NotFound: scenario parameter set",
            events := evs1 }
      | .error .corrupt =>
          { outcome := .failed "CorruptParameterSet", events := evs1 }
      | .ok ps =>
        match args.workspace with
        | some w =>
            afterWorkspace env args
              (setE ps.args "workspace_dir" (.vstr (abspath env.cwd w)))
              (some w) evs1
        | none =>
            match lookupE ps.args "workspace_dir" with
            | some _ => afterWorkspace env args ps.args none evs1
            | none =>
                { outcome := .exited 3
                    "Workspace not defined. Use --workspace to specify or add a workspace_dir parameter to your scenario.",
                  events := evs1 }
  else
    { outcome := .guiBranch, events := [] }

/-! ## The archiving walk on well-behaved file parameters

`GoodPath` singles out the parameters the round-trip and de-duplication
claims quantify over: absolute paths classified as ordinary single files,
whose basename is nonempty, relative, and avoids the two names the
staging area itself uses (`parameters.json`, written over the staged data
at lines 259-262, and the `data` directory created at line 112). -/

def GoodPath (C : CollectCtx) (p : String) : Prop :=
  isAbs p = true ∧ C.fs.kind p = FileKind.plainFile ∧ basename p ≠ "" ∧
  basename p ≠ "parameters.json" ∧ basename p ≠ "data" ∧
  isAbs (basename p) = false

instance (C : CollectCtx) (p : String) : Decidable (GoodPath C p) := by
  unfold GoodPath; infer_instance

/-- The invariant maintained by one `collect_parameters` call over the
well-behaved parameters of `S`: every de-duplication record maps an
already-processed source path of `S` to its basename, and the staging
area holds that source's bytes under that basename. -/
def StageInv (C : CollectCtx) (S : List String) (st : CollectState) : Prop :=
  ∀ a r, (a, r) ∈ st.filesFound →
    a ∈ S ∧ r = basename a ∧
    alookup st.staged (basename a) = some (C.fs.content a)

/-- The shapes the reserved `suffix` keys may take for the round-trip
statement: absent, a non-string scalar, or an absolute path string (which
`_get_if_uri` maps to itself, since joining an absolute path discards the
input folder). -/
def ReservedOk : Option Value → Prop
  | none => True
  | some (.vstr s) => isAbs s = true
  | some (.vint _) => True
  | some (.vbool _) => True
  | some (.vdict _) => False
  | some (.vlist _) => False

instance : (o : Option Value) → Decidable (ReservedOk o)
  | none => isTrue trivial
  | some (.vstr s) => inferInstanceAs (Decidable (isAbs s = true))
  | some (.vint _) => isTrue trivial
  | some (.vbool _) => isTrue trivial
  | some (.vdict _) => isFalse (fun h => h)
  | some (.vlist _) => isFalse (fun h => h)

/-- The number of occurrences of `p` in a copy log. -/
def countOcc (p : String) : List String → Nat
  | [] => 0
  | q :: rest => (if q = p then 1 else 0) + countOcc p rest

/-- The de-duplication invariant for one tracked source path `p` during a
single `collect_parameters` call, with no assumption on any other value:
either `p` has not been processed yet (no `files_found` record), or its
record maps it to its basename. -/
def DedupInv (p : String) (st : CollectState) : Prop :=
  alookup st.filesFound p = none ∨
  alookup st.filesFound p = some (basename p)

/-! `rewrote p b before after` checks that `after` is `before` with every
occurrence of the string `p` — at any depth of the argument tree —
replaced by `b`, other strings replaced arbitrarily, all non-string
scalars and the key/shape structure unchanged.  This is the shape of the
rewriting `format_dictionary` performs, specialised to what it does to
the occurrences of one tracked path. -/

mutual
def rewroteV (p b : String) : Value → Value → Bool
  | .vstr s, .vstr t => if s = p then t == b else true
  | .vint n, .vint m => n == m
  | .vbool x, .vbool y => x == y
  | .vdict es, .vdict es' => rewroteE p b es es'
  | .vlist xs, .vlist xs' => rewroteI p b xs xs'
  | _, _ => false

def rewroteE (p b : String) : Entries → Entries → Bool
  | .nil, .nil => true
  | .cons k v rest, .cons k' v' rest' =>
      k == k' && rewroteV p b v v' && rewroteE p b rest rest'
  | _, _ => false

def rewroteI (p b : String) : Items → Items → Bool
  | .nil, .nil => true
  | .cons v rest, .cons v' rest' =>
      rewroteV p b v v' && rewroteI p b rest rest'
  | _, _ => false
end

/-! ## Concrete instances used by the individual verification results -/

def trivialFS : FS :=
  { kind := fun _ => .missing, content := fun _ => [] }

/-- Two distinct existing files sharing the basename `x.txt`. -/
def c1xFS : FS :=
  { kind := fun p =>
      if p = "/a/x.txt" ∨ p = "/b/x.txt" then .plainFile else .missing,
    content := fun p =>
      if p = "/a/x.txt" then [1] else if p = "/b/x.txt" then [2] else [] }

def c1xCtx : CollectCtx :=
  { fs := c1xFS, cwd := "/home/user", tmp := "/tmp/scenario_a",
    randDir := fun s => s }

def c1xP : Entries :=
  .cons "f1" (.vstr "/a/x.txt") (.cons "f2" (.vstr "/b/x.txt") .nil)

/-- Two existing files with distinct basenames, one nested one level
down, next to reserved keys. -/
def c1wFS : FS :=
  { kind := fun p =>
      if p = "/a/x.txt" ∨ p = "/b/y.txt" then .plainFile else .missing,
    content := fun p =>
      if p = "/a/x.txt" then [10] else if p = "/b/y.txt" then [20] else [] }

def c1wCtx : CollectCtx :=
  { fs := c1wFS, cwd := "/home/user", tmp := "/tmp/scenario_b",
    randDir := fun s => s }

def c1wP : Entries :=
  .cons "lulc_path" (.vstr "/a/x.txt")
    (.cons "nested" (.vdict (.cons "f" (.vstr "/b/y.txt") .nil))
      (.cons "workspace_dir" (.vstr "/old/ws")
        (.cons "suffix" (.vint 3) .nil)))

def c7xCtx : CollectCtx :=
  { fs := trivialFS, cwd := "/home/user", tmp := "/tmp/scenario_c",
    randDir := fun s => s }

def c7xP : Entries :=
  .cons "workspace_dir" (.vstr "/old/ws") (.cons "suffix" (.vstr "_v1") .nil)

/-- Two distinct existing regular files sharing the basename `same.bin`. -/
def c10FS : FS :=
  { kind := fun p =>
      if p = "/one/same.bin" ∨ p = "/two/same.bin" then .plainFile
      else .missing,
    content := fun p =>
      if p = "/one/same.bin" then [1, 1]
      else if p = "/two/same.bin" then [2, 2] else [] }

def c10Ctx : CollectCtx :=
  { fs := c10FS, cwd := "/home/user", tmp := "/tmp/scenario_e",
    randDir := fun s => s }

def c10P : Entries :=
  .cons "first_input" (.vstr "/one/same.bin")
    (.cons "second_input" (.vstr "/two/same.bin") .nil)

/-- A scenario whose ParameterSet has no `workspace_dir` key. -/
def c6Ps : ParamSet :=
  { name := "carbon run", args := .cons "lulc" (.vstr "/in/lulc.tif") .nil }

def c6Env : CliEnv :=
  { uiImportable := true, cwd := "/home/user",
    pathExists := fun _ => false, listdirNonempty := fun _ => false,
    stdoutIsTty := false, promptAnswerNo := true,
    scenarioFile := fun r => if r = "scen.json" then some c6Ps else none,
    modelValidate := none }

def c6Args : CliArgs :=
  { model := "carbon", headless := true, scenario := some "scen.json",
    workspace := none, overwrite := false, noValidateGiven := false }

/-- A scenario resolving the workspace to the existing, non-empty
directory `/data/ws`; the process runs from an empty current directory
with a non-interactive stdout and no overwrite flag. -/
def c5Ps : ParamSet :=
  { name := "carbon run",
    args := .cons "workspace_dir" (.vstr "/data/ws") .nil }

def c5Env : CliEnv :=
  { uiImportable := true, cwd := "/home/user/emptydir",
    pathExists := fun p => p = "/data/ws",
    listdirNonempty := fun p => p = "/data/ws",
    stdoutIsTty := false, promptAnswerNo := true,
    scenarioFile := fun r => if r = "scen.json" then some c5Ps else none,
    modelValidate := none }

def c5Args : CliArgs :=
  { model := "carbon", headless := true, scenario := some "scen.json",
    workspace := none, overwrite := false, noValidateGiven := false }

/-- A model module that does define a `validate` function. -/
def c4Fn : Entries → List String := fun _ => ["missing key: lulc"]

def c4Ps : ParamSet :=
  { name := "carbon run",
    args := .cons "workspace_dir" (.vstr "/data/ws") .nil }

def c4Env : CliEnv :=
  { uiImportable := true, cwd := "/home/user",
    pathExists := fun _ => false, listdirNonempty := fun _ => false,
    stdoutIsTty := false, promptAnswerNo := true,
    scenarioFile := fun r => if r = "scen.json" then some c4Ps else none,
    modelValidate := some c4Fn }

def c4Args : CliArgs :=
  { model := "carbon", headless := true, scenario := some "scen.json",
    workspace := none, overwrite := false, noValidateGiven := false }

def c8Env : CliEnv :=
  { uiImportable := true, cwd := "/home/user",
    pathExists := fun _ => false, listdirNonempty := fun _ => false,
    stdoutIsTty := false, promptAnswerNo := true,
    scenarioFile := fun _ => none, modelValidate := none }

def c8Args : CliArgs :=
  { model := "pollination", headless := true, scenario := none,
    workspace := none, overwrite := false, noValidateGiven := false }

def c9Env : CliEnv :=
  { uiImportable := false, cwd := "/home/user",
    pathExists := fun _ => false, listdirNonempty := fun _ => false,
    stdoutIsTty := false, promptAnswerNo := true,
    scenarioFile := fun _ => none, modelValidate := none }

def c9Args : CliArgs :=
  { model := "carbon", headless := true, scenario := some "scen.json",
    workspace := some "/w", overwrite := false, noValidateGiven := true }

/-! ## Association-list lemmas -/

theorem mem_of_alookup_eq_some {α : Type} {l : List (String × α)} {k : String}
    {v : α} (h : alookup l k = some v) : (k, v) ∈ l := by
  induction l with
  | nil => simp [alookup] at h
  | cons hd tl ih =>
      obtain ⟨k', v'⟩ := hd
      by_cases hk : k' = k
      · subst hk
        simp [alookup] at h
        simp [h]
      · simp [alookup, hk] at h
        exact List.mem_cons_of_mem _ (ih h)

theorem not_mem_of_alookup_eq_none {α : Type} {l : List (String × α)}
    {k : String} (h : alookup l k = none) (v : α) : (k, v) ∉ l := by
  induction l with
  | nil => simp
  | cons hd tl ih =>
      obtain ⟨k', v'⟩ := hd
      by_cases hk : k' = k
      · subst hk; simp [alookup] at h
      · simp [alookup, hk] at h
        intro hmem
        rcases List.mem_cons.mp hmem with heq | hmem'
        · exact hk (by injection heq with h1 _; exact h1.symm) |>.elim
        · exact ih h hmem'

theorem alookup_isSome_of_mem {α : Type} {l : List (String × α)} {k : String}
    {v : α} (h : (k, v) ∈ l) : (alookup l k).isSome = true := by
  cases hl : alookup l k with
  | some w => rfl
  | none => exact absurd h (not_mem_of_alookup_eq_none hl v)

theorem aset_of_alookup_none {α : Type} {l : List (String × α)} {k : String}
    (v : α) (h : alookup l k = none) : aset l k v = l ++ [(k, v)] := by
  induction l with
  | nil => rfl
  | cons hd tl ih =>
      obtain ⟨k', v'⟩ := hd
      by_cases hk : k' = k
      · subst hk; simp [alookup] at h
      · simp [alookup, hk] at h
        simp [aset, hk, ih h]

theorem alookup_aset_self {α : Type} (l : List (String × α)) (k : String)
    (v : α) : alookup (aset l k v) k = some v := by
  induction l with
  | nil => simp [aset, alookup]
  | cons hd tl ih =>
      obtain ⟨k', v'⟩ := hd
      by_cases hk : k' = k
      · subst hk; simp [aset, alookup]
      · simp [aset, alookup, hk, ih]

theorem alookup_aset_of_ne {α : Type} {p k : String} (l : List (String × α))
    (v : α) (h : p ≠ k) : alookup (aset l k v) p = alookup l p := by
  induction l with
  | nil => simp [aset, alookup, Ne.symm h]
  | cons hd tl ih =>
      obtain ⟨k', v'⟩ := hd
      by_cases hk : k' = k
      · subst hk
        simp [aset, alookup, Ne.symm h]
      · by_cases hp : k' = p
        · subst hp; simp [aset, alookup, hk]
        · simp [aset, alookup, hk, hp, ih]

theorem countOcc_append (p : String) (a b : List String) :
    countOcc p (a ++ b) = countOcc p a + countOcc p b := by
  induction a with
  | nil => simp [countOcc]
  | cons q rest ih => simp [countOcc, ih]; omega

theorem abspath_of_isAbs {cwd p : String} (h : isAbs p = true) :
    abspath cwd p = p := by
  simp [abspath, h]

/-- `get_if_file` on a well-behaved parameter: it returns the basename,
copies the file exactly when the source was not seen before, preserves
and extends the de-duplication record, and leaves records of other
sources untouched. -/
theorem getIfFile_spec (C : CollectCtx) (S : List String)
    (hS : ∀ p ∈ S, GoodPath C p)
    (hinj : ∀ p ∈ S, ∀ q ∈ S, basename p = basename q → p = q)
    (s : String) (hs : s ∈ S) (st : CollectState)
    (hInv : StageInv C S st) :
    (getIfFile C st s).1 = basename s ∧
    StageInv C S (getIfFile C st s).2 ∧
    (∀ x ∈ st.filesFound, x ∈ (getIfFile C st s).2.filesFound) ∧
    ((s, basename s) ∈ (getIfFile C st s).2.filesFound) ∧
    (∀ p, p ≠ s →
      alookup (getIfFile C st s).2.filesFound p = alookup st.filesFound p) ∧
    (∀ p, countOcc p (getIfFile C st s).2.copyLog = countOcc p st.copyLog +
      (if (alookup st.filesFound p).isSome then 0
       else if p = s then 1 else 0)) := by
  obtain ⟨habs, hkind, -, -, -, -⟩ := hS s hs
  cases hff : alookup st.filesFound s with
  | some uri =>
      have hgi : getIfFile C st s = (uri, st) := by
        unfold getIfFile
        rw [abspath_of_isAbs habs, hff]
      have hmem := mem_of_alookup_eq_some hff
      obtain ⟨-, hbn, -⟩ := hInv s uri hmem
      rw [hgi]
      subst hbn
      refine ⟨rfl, hInv, fun x hx => hx, hmem, fun p _ => rfl, fun p => ?_⟩
      by_cases hp : p = s
      · subst hp; simp [hff]
      · cases hps : (alookup st.filesFound p).isSome <;> simp [hp]
  | none =>
      have hgi : getIfFile C st s =
          (basename s,
           { filesFound := aset st.filesFound s (basename s),
             staged := aset st.staged (basename s) (C.fs.content s),
             copyLog := st.copyLog ++ [s],
             counter := st.counter }) := by
        unfold getIfFile
        rw [abspath_of_isAbs habs, hff, hkind]
      rw [hgi]
      refine ⟨rfl, ?_, ?_, ?_, ?_, ?_⟩
      · -- the invariant is preserved by the fresh copy
        intro a r hmem
        simp only at hmem
        rw [aset_of_alookup_none _ hff] at hmem
        rcases List.mem_append.mp hmem with hold | hnew
        · obtain ⟨haS, hbn, hst⟩ := hInv a r hold
          refine ⟨haS, hbn, ?_⟩
          simp only
          by_cases hb : basename a = basename s
          · have : a = s := hinj a haS s hs hb
            subst this
            exact absurd hold (not_mem_of_alookup_eq_none hff r)
          · rw [alookup_aset_of_ne _ _ hb]
            exact hst
        · simp at hnew
          obtain ⟨ha, hr⟩ := hnew
          subst ha; subst hr
          exact ⟨hs, rfl, alookup_aset_self _ _ _⟩
      · -- old records persist
        intro x hx
        simp only
        rw [aset_of_alookup_none _ hff]
        exact List.mem_append_left _ hx
      · -- the new record is present
        simp only
        rw [aset_of_alookup_none _ hff]
        exact List.mem_append_right _ (by simp)
      · -- other sources untouched
        intro p hp
        simp only
        exact alookup_aset_of_ne _ _ hp
      · -- exactly one copy is logged
        intro p
        simp only
        by_cases hp : p = s
        · subst hp
          simp [hff, countOcc_append, countOcc]
        · cases hps : (alookup st.filesFound p).isSome <;>
            simp [hp, countOcc_append, countOcc, Ne.symm hp]

/-! The master lemma for the archiving walk over well-behaved file
parameters: the walk rewrites every string to its basename, maintains the
staging invariant, only grows the de-duplication record, records every
walked source, leaves unwalked sources untouched, and copies each source
exactly once across all of its occurrences. -/

mutual
theorem collectValue_spec (C : CollectCtx) (S : List String)
    (hS : ∀ p ∈ S, GoodPath C p)
    (hinj : ∀ p ∈ S, ∀ q ∈ S, basename p = basename q → p = q)
    (v : Value) (st : CollectState)
    (hsub : ∀ p ∈ stringsV v, p ∈ S) (hInv : StageInv C S st) :
    (collectValue C v st).1 = mapStringsV basename v ∧
    StageInv C S (collectValue C v st).2 ∧
    (∀ x ∈ st.filesFound, x ∈ (collectValue C v st).2.filesFound) ∧
    (∀ p ∈ stringsV v, (p, basename p) ∈ (collectValue C v st).2.filesFound) ∧
    (∀ p, p ∉ stringsV v →
      alookup (collectValue C v st).2.filesFound p = alookup st.filesFound p) ∧
    (∀ p, countOcc p (collectValue C v st).2.copyLog =
      countOcc p st.copyLog +
      (if (alookup st.filesFound p).isSome then 0
       else if p ∈ stringsV v then 1 else 0)) := by
  cases v with
  | vstr s =>
      have hs : s ∈ S := hsub s (by simp [stringsV])
      obtain ⟨h1, h2, h3, h4, h5, h6⟩ :=
        getIfFile_spec C S hS hinj s hs st hInv
      refine ⟨by simp [collectValue, mapStringsV, h1], h2, h3, ?_, ?_, ?_⟩
      · intro p hp
        simp [stringsV] at hp
        subst hp
        exact h4
      · intro p hp
        simp [stringsV] at hp
        exact h5 p hp
      · intro p
        have := h6 p
        simpa [stringsV] using this
  | vint n =>
      refine ⟨rfl, hInv, fun x hx => hx, ?_, fun p _ => rfl, fun p => ?_⟩
      · intro p hp; simp [stringsV] at hp
      · simp [stringsV, collectValue]
  | vbool b =>
      refine ⟨rfl, hInv, fun x hx => hx, ?_, fun p _ => rfl, fun p => ?_⟩
      · intro p hp; simp [stringsV] at hp
      · simp [stringsV, collectValue]
  | vdict es =>
      obtain ⟨h1, h2, h3, h4, h5, h6⟩ :=
        collectEntries_spec C S hS hinj es st
          (fun p hp => hsub p (by simpa [stringsV] using hp)) hInv
      refine ⟨by simp [collectValue, mapStringsV, h1], h2, h3, ?_, ?_, ?_⟩
      · intro p hp
        exact h4 p (by simpa [stringsV] using hp)
      · intro p hp
        exact h5 p (by simpa [stringsV] using hp)
      · intro p
        simpa [stringsV] using h6 p
  | vlist xs =>
      obtain ⟨h1, h2, h3, h4, h5, h6⟩ :=
        collectItems_spec C S hS hinj xs st
          (fun p hp => hsub p (by simpa [stringsV] using hp)) hInv
      refine ⟨by simp [collectValue, mapStringsV, h1], h2, h3, ?_, ?_, ?_⟩
      · intro p hp
        exact h4 p (by simpa [stringsV] using hp)
      · intro p hp
        exact h5 p (by simpa [stringsV] using hp)
      · intro p
        simpa [stringsV] using h6 p

theorem collectEntries_spec (C : CollectCtx) (S : List String)
    (hS : ∀ p ∈ S, GoodPath C p)
    (hinj : ∀ p ∈ S, ∀ q ∈ S, basename p = basename q → p = q)
    (es : Entries) (st : CollectState)
    (hsub : ∀ p ∈ stringsE es, p ∈ S) (hInv : StageInv C S st) :
    (collectEntries C es st).1 = mapStringsE basename es ∧
    StageInv C S (collectEntries C es st).2 ∧
    (∀ x ∈ st.filesFound, x ∈ (collectEntries C es st).2.filesFound) ∧
    (∀ p ∈ stringsE es,
      (p, basename p) ∈ (collectEntries C es st).2.filesFound) ∧
    (∀ p, p ∉ stringsE es →
      alookup (collectEntries C es st).2.filesFound p =
        alookup st.filesFound p) ∧
    (∀ p, countOcc p (collectEntries C es st).2.copyLog =
      countOcc p st.copyLog +
      (if (alookup st.filesFound p).isSome then 0
       else if p ∈ stringsE es then 1 else 0)) := by
  cases es with
  | nil =>
      refine ⟨rfl, hInv, fun x hx => hx, ?_, fun p _ => rfl, fun p => ?_⟩
      · intro p hp; simp [stringsE] at hp
      · simp [stringsE, collectEntries]
  | cons k v rest =>
      obtain ⟨h1, h2, h3, h4, h5, h6⟩ :=
        collectValue_spec C S hS hinj v st
          (fun p hp => hsub p (by simp [stringsE, hp])) hInv
      obtain ⟨g1, g2, g3, g4, g5, g6⟩ :=
        collectEntries_spec C S hS hinj rest (collectValue C v st).2
          (fun p hp => hsub p (by simp [stringsE, hp])) h2
      simp only [collectEntries]
      refine ⟨by simp [mapStringsE, h1, g1], g2, ?_, ?_, ?_, ?_⟩
      · intro x hx
        exact g3 x (h3 x hx)
      · intro p hp
        rcases List.mem_append.mp (by simpa [stringsE] using hp) with hv | hr
        · exact g3 _ (h4 p hv)
        · exact g4 p hr
      · intro p hp
        simp [stringsE] at hp
        rw [g5 p hp.2, h5 p hp.1]
      · intro p
        rw [g6 p, h6 p]
        cases hst : alookup st.filesFound p with
        | some w =>
            have hmid : (alookup (collectValue C v st).2.filesFound p).isSome =
                true := alookup_isSome_of_mem (h3 _ (mem_of_alookup_eq_some hst))
            simp [hmid]
        | none =>
            by_cases hpv : p ∈ stringsV v
            · have hmid : (alookup (collectValue C v st).2.filesFound p).isSome =
                  true := alookup_isSome_of_mem (h4 p hpv)
              simp [hmid, hpv, stringsE]
            · have hmid : alookup (collectValue C v st).2.filesFound p = none := by
                rw [h5 p hpv]; exact hst
              simp [hmid, hpv, stringsE]

theorem collectItems_spec (C : CollectCtx) (S : List String)
    (hS : ∀ p ∈ S, GoodPath C p)
    (hinj : ∀ p ∈ S, ∀ q ∈ S, basename p = basename q → p = q)
    (xs : Items) (st : CollectState)
    (hsub : ∀ p ∈ stringsI xs, p ∈ S) (hInv : StageInv C S st) :
    (collectItems C xs st).1 = mapStringsI basename xs ∧
    StageInv C S (collectItems C xs st).2 ∧
    (∀ x ∈ st.filesFound, x ∈ (collectItems C xs st).2.filesFound) ∧
    (∀ p ∈ stringsI xs,
      (p, basename p) ∈ (collectItems C xs st).2.filesFound) ∧
    (∀ p, p ∉ stringsI xs →
      alookup (collectItems C xs st).2.filesFound p =
        alookup st.filesFound p) ∧
    (∀ p, countOcc p (collectItems C xs st).2.copyLog =
      countOcc p st.copyLog +
      (if (alookup st.filesFound p).isSome then 0
       else if p ∈ stringsI xs then 1 else 0)) := by
  cases xs with
  | nil =>
      refine ⟨rfl, hInv, fun x hx => hx, ?_, fun p _ => rfl, fun p => ?_⟩
      · intro p hp; simp [stringsI] at hp
      · simp [stringsI, collectItems]
  | cons v rest =>
      obtain ⟨h1, h2, h3, h4, h5, h6⟩ :=
        collectValue_spec C S hS hinj v st
          (fun p hp => hsub p (by simp [stringsI, hp])) hInv
      obtain ⟨g1, g2, g3, g4, g5, g6⟩ :=
        collectItems_spec C S hS hinj rest (collectValue C v st).2
          (fun p hp => hsub p (by simp [stringsI, hp])) h2
      simp only [collectItems]
      refine ⟨by simp [mapStringsI, h1, g1], g2, ?_, ?_, ?_, ?_⟩
      · intro x hx
        exact g3 x (h3 x hx)
      · intro p hp
        rcases List.mem_append.mp (by simpa [stringsI] using hp) with hv | hr
        · exact g3 _ (h4 p hv)
        · exact g4 p hr
      · intro p hp
        simp [stringsI] at hp
        rw [g5 p hp.2, h5 p hp.1]
      · intro p
        rw [g6 p, h6 p]
        cases hst : alookup st.filesFound p with
        | some w =>
            have hmid : (alookup (collectValue C v st).2.filesFound p).isSome =
                true := alookup_isSome_of_mem (h3 _ (mem_of_alookup_eq_some hst))
            simp [hmid]
        | none =>
            by_cases hpv : p ∈ stringsV v
            · have hmid : (alookup (collectValue C v st).2.filesFound p).isSome =
                  true := alookup_isSome_of_mem (h4 p hpv)
              simp [hmid, hpv, stringsI]
            · have hmid : alookup (collectValue C v st).2.filesFound p = none := by
                rw [h5 p hpv]; exact hst
              simp [hmid, hpv, stringsI]
end

/-! ## Argument-mapping lemmas -/

theorem appendE_nil (es : Entries) : appendE es .nil = es := by
  cases es with
  | nil => rfl
  | cons k v rest => simp [appendE, appendE_nil rest]

theorem appendE_assoc (a b c : Entries) :
    appendE (appendE a b) c = appendE a (appendE b c) := by
  cases a with
  | nil => rfl
  | cons k v rest => simp [appendE, appendE_assoc rest b c]

theorem lookupE_appendE (a b : Entries) (k : String) :
    lookupE (appendE a b) k =
      match lookupE a k with
      | some v => some v
      | none => lookupE b k := by
  cases a with
  | nil => simp [appendE, lookupE]
  | cons k' v rest =>
      by_cases hk : k' = k
      · subst hk; simp [appendE, lookupE]
      · simp [appendE, lookupE, hk, lookupE_appendE rest b k]

theorem lookupE_setE_self (es : Entries) (k : String) (v : Value) :
    lookupE (setE es k v) k = some v := by
  cases es with
  | nil => simp [setE, lookupE]
  | cons k' v' rest =>
      by_cases hk : k' = k
      · subst hk; simp [setE, lookupE]
      · simp [setE, lookupE, hk, lookupE_setE_self rest k v]

theorem lookupE_setE_of_ne {p k : String} (es : Entries) (v : Value)
    (h : p ≠ k) : lookupE (setE es k v) p = lookupE es p := by
  cases es with
  | nil => simp [setE, lookupE, Ne.symm h]
  | cons k' v' rest =>
      by_cases hk : k' = k
      · subst hk; simp [setE, lookupE, Ne.symm h]
      · by_cases hp : k' = p
        · subst hp; simp [setE, lookupE, hk]
        · simp [setE, lookupE, hk, hp, lookupE_setE_of_ne rest v h]

theorem setE_of_lookupE_none (es : Entries) (k : String) (v : Value)
    (h : lookupE es k = none) :
    setE es k v = appendE es (.cons k v .nil) := by
  cases es with
  | nil => rfl
  | cons k' v' rest =>
      by_cases hk : k' = k
      · subst hk; simp [lookupE] at h
      · simp [lookupE, hk] at h
        simp [setE, appendE, hk, setE_of_lookupE_none rest k v h]

theorem lookupE_eq_none_of_not_mem_keys {es : Entries} {k : String}
    (h : k ∉ keysE es) : lookupE es k = none := by
  cases es with
  | nil => rfl
  | cons k' v rest =>
      simp [keysE] at h
      simp [lookupE, Ne.symm h.1, lookupE_eq_none_of_not_mem_keys h.2]

/-- The walk preserves the key structure of a dictionary. -/
theorem keysE_collectEntries (C : CollectCtx) (es : Entries)
    (st : CollectState) :
    keysE (collectEntries C es st).1 = keysE es := by
  cases es with
  | nil => rfl
  | cons k v rest =>
      simp [collectEntries, keysE,
        keysE_collectEntries C rest (collectValue C v st).2]

theorem keysE_mapStringsE (f : String → String) (es : Entries) :
    keysE (mapStringsE f es) = keysE es := by
  cases es with
  | nil => rfl
  | cons k v rest => simp [mapStringsE, keysE, keysE_mapStringsE f rest]

theorem not_mem_keysE_stripReserved {k : String} (h : k ∈ reservedKeys)
    (P : Entries) : k ∉ keysE (stripReserved P) := by
  cases P with
  | nil => simp [stripReserved, keysE]
  | cons k' v rest =>
      by_cases hk : k' ∈ reservedKeys
      · simp [stripReserved, hk, not_mem_keysE_stripReserved h rest]
      · simp [stripReserved, hk, keysE]
        refine ⟨?_, not_mem_keysE_stripReserved h rest⟩
        intro he
        subst he
        exact hk h

theorem stripReserved_idem (P : Entries) :
    stripReserved (stripReserved P) = stripReserved P := by
  cases P with
  | nil => rfl
  | cons k v rest =>
      by_cases hk : k ∈ reservedKeys
      · simp [stripReserved, hk, stripReserved_idem rest]
      · simp [stripReserved, hk, stripReserved_idem rest]

/-! Composition and congruence of the stateless string map. -/

mutual
theorem mapStringsV_comp (f g : String → String) (v : Value) :
    mapStringsV f (mapStringsV g v) = mapStringsV (fun s => f (g s)) v := by
  cases v with
  | vstr s => rfl
  | vint n => rfl
  | vbool b => rfl
  | vdict es => simp [mapStringsV, mapStringsE_comp f g es]
  | vlist xs => simp [mapStringsV, mapStringsI_comp f g xs]

theorem mapStringsE_comp (f g : String → String) (es : Entries) :
    mapStringsE f (mapStringsE g es) = mapStringsE (fun s => f (g s)) es := by
  cases es with
  | nil => rfl
  | cons k v rest =>
      simp [mapStringsE, mapStringsV_comp f g v, mapStringsE_comp f g rest]

theorem mapStringsI_comp (f g : String → String) (xs : Items) :
    mapStringsI f (mapStringsI g xs) = mapStringsI (fun s => f (g s)) xs := by
  cases xs with
  | nil => rfl
  | cons v rest =>
      simp [mapStringsI, mapStringsV_comp f g v, mapStringsI_comp f g rest]
end

mutual
theorem mapStringsV_congr (f g : String → String) (v : Value)
    (h : ∀ s ∈ stringsV v, f s = g s) :
    mapStringsV f v = mapStringsV g v := by
  cases v with
  | vstr s => simp [mapStringsV, h s (by simp [stringsV])]
  | vint n => rfl
  | vbool b => rfl
  | vdict es =>
      simp [mapStringsV,
        mapStringsE_congr f g es (fun s hs => h s (by simpa [stringsV] using hs))]
  | vlist xs =>
      simp [mapStringsV,
        mapStringsI_congr f g xs (fun s hs => h s (by simpa [stringsV] using hs))]

theorem mapStringsE_congr (f g : String → String) (es : Entries)
    (h : ∀ s ∈ stringsE es, f s = g s) :
    mapStringsE f es = mapStringsE g es := by
  cases es with
  | nil => rfl
  | cons k v rest =>
      simp [mapStringsE,
        mapStringsV_congr f g v (fun s hs => h s (by simp [stringsE, hs])),
        mapStringsE_congr f g rest (fun s hs => h s (by simp [stringsE, hs]))]

theorem mapStringsI_congr (f g : String → String) (xs : Items)
    (h : ∀ s ∈ stringsI xs, f s = g s) :
    mapStringsI f xs = mapStringsI g xs := by
  cases xs with
  | nil => rfl
  | cons v rest =>
      simp [mapStringsI,
        mapStringsV_congr f g v (fun s hs => h s (by simp [stringsI, hs])),
        mapStringsI_congr f g rest (fun s hs => h s (by simp [stringsI, hs]))]
end

theorem mapStringsE_appendE (f : String → String) (a b : Entries) :
    mapStringsE f (appendE a b) = appendE (mapStringsE f a) (mapStringsE f b) := by
  cases a with
  | nil => rfl
  | cons k v rest => simp [appendE, mapStringsE, mapStringsE_appendE f rest b]

/-- One unfolding step of `collect_parameters`. -/
theorem collect_parameters_eq (C : CollectCtx) (P : Entries) :
    collect_parameters C P =
      { args := (reservedPairs P).foldl (fun acc kv => setE acc kv.1 kv.2)
          (collectEntries C (stripReserved P) initState).1,
        staged := (collectEntries C (stripReserved P) initState).2.staged,
        copyLog := (collectEntries C (stripReserved P) initState).2.copyLog } :=
  rfl

/-- Restoring the tracked reserved keys into a mapping that lacks them is
an append. -/
theorem foldl_reservedPairs (P : Entries) (es : Entries)
    (hs : lookupE es "suffix" = none)
    (hrs : lookupE es "results_suffix" = none) :
    (reservedPairs P).foldl (fun acc kv => setE acc kv.1 kv.2) es =
      appendE es (ofPairs (reservedPairs P)) := by
  unfold reservedPairs
  cases h1 : lookupE P "suffix" with
  | none =>
      cases h2 : lookupE P "results_suffix" with
      | none => simp [ofPairs, appendE_nil]
      | some w =>
          simp only [List.nil_append, List.foldl, ofPairs]
          exact setE_of_lookupE_none es _ w hrs
  | some v =>
      cases h2 : lookupE P "results_suffix" with
      | none =>
          simp only [List.append_nil, List.foldl, ofPairs]
          exact setE_of_lookupE_none es _ v hs
      | some w =>
          simp only [List.cons_append, List.nil_append, List.foldl, ofPairs]
          rw [setE_of_lookupE_none es _ v hs]
          rw [setE_of_lookupE_none _ _ w (by
            rw [lookupE_appendE]
            simp [hrs, lookupE])]
          rw [appendE_assoc]
          rfl

theorem getIfUri_of_isAbs (fs : FS) (A : ArchiveModel) (inF : Path)
    {s : String} (h : isAbs s = true) : getIfUri fs A inF s = s := by
  unfold getIfUri
  split
  · simp [pjoin, h]
  · rfl

theorem getIfUri_staged (fs : FS) (A : ArchiveModel) (inF : Path)
    {b : String} (hne : b ≠ "") (hnab : isAbs b = false)
    (hpj : b ≠ "parameters.json") (hdata : b ≠ "data")
    (hst : (alookup A.staged b).isSome = true) :
    getIfUri fs A inF b = pjoin inF b := by
  have hex : extractedExists fs A b = true := by
    unfold extractedExists
    simp [hnab, hpj, hdata, hst]
  unfold getIfUri
  simp [hne, hex]

theorem mapStringsV_reserved (fs : FS) (A : ArchiveModel) (inF : Path)
    {v : Value} (h : ReservedOk (some v)) :
    mapStringsV (getIfUri fs A inF) v = v := by
  cases v with
  | vstr s =>
      have h' : isAbs s = true := h
      simp [mapStringsV, getIfUri_of_isAbs fs A inF h']
  | vint n => rfl
  | vbool b => rfl
  | vdict es => exact absurd h (fun hf => hf)
  | vlist xs => exact absurd h (fun hf => hf)

theorem mapStringsE_reservedPairs (fs : FS) (A : ArchiveModel) (inF : Path)
    (P : Entries)
    (hs : ReservedOk (lookupE P "suffix"))
    (hrs : ReservedOk (lookupE P "results_suffix")) :
    mapStringsE (getIfUri fs A inF) (ofPairs (reservedPairs P)) =
      ofPairs (reservedPairs P) := by
  unfold reservedPairs
  cases h1 : lookupE P "suffix" with
  | none =>
      cases h2 : lookupE P "results_suffix" with
      | none => rfl
      | some w =>
          rw [h2] at hrs
          simp [ofPairs, mapStringsE, mapStringsV_reserved fs A inF hrs]
  | some v =>
      rw [h1] at hs
      cases h2 : lookupE P "results_suffix" with
      | none => simp [ofPairs, mapStringsE, mapStringsV_reserved fs A inF hs]
      | some w =>
          rw [h2] at hrs
          simp [ofPairs, mapStringsE, mapStringsV_reserved fs A inF hs,
            mapStringsV_reserved fs A inF hrs]

theorem lookupE_reservedPairs_wd (P : Entries) :
    lookupE (ofPairs (reservedPairs P)) "workspace_dir" = none := by
  unfold reservedPairs
  cases h1 : lookupE P "suffix" <;> cases h2 : lookupE P "results_suffix" <;>
    simp [ofPairs, lookupE]

/-- C1 (amended): archiving a ParameterSet whose non-reserved string
values are absolute paths of ordinary single files (not multi-part GIS
datasets) with pairwise distinct basenames — and whose reserved suffix
values, when present, are scalars or absolute strings — and then
extracting into workspace `W` with input folder `inF` returns exactly the
original mapping with the reserved keys stripped, every file value
rewritten to its staged copy under `inF`, the tracked suffix keys
restored verbatim, and `workspace_dir` forced to `W`; and the staged copy
of every file value is byte-identical to its source. -/
theorem C1_roundtrip_amended (C : CollectCtx) (P : Entries) (W inF : Path)
    (hgood : ∀ p ∈ stringsE (stripReserved P), GoodPath C p)
    (hinj : ∀ p ∈ stringsE (stripReserved P),
      ∀ q ∈ stringsE (stripReserved P), basename p = basename q → p = q)
    (hs : ReservedOk (lookupE P "suffix"))
    (hrs : ReservedOk (lookupE P "results_suffix")) :
    extract_parameters_archive C.fs W (collect_parameters C P) inF =
      appendE
        (mapStringsE (fun s => pjoin inF (basename s)) (stripReserved P))
        (appendE (ofPairs (reservedPairs P))
          (.cons "workspace_dir" (.vstr W) .nil)) ∧
    ∀ p ∈ stringsE (stripReserved P),
      alookup (collect_parameters C P).staged (basename p) =
        some (C.fs.content p) := by
  have hInv0 : StageInv C (stringsE (stripReserved P)) initState := by
    intro a r h
    simp [initState] at h
  obtain ⟨h1, h2, h3, h4, h5, h6⟩ :=
    collectEntries_spec C (stringsE (stripReserved P)) hgood hinj
      (stripReserved P) initState (fun p hp => hp) hInv0
  have hstaged : ∀ p ∈ stringsE (stripReserved P),
      alookup (collectEntries C (stripReserved P) initState).2.staged
        (basename p) = some (C.fs.content p) := by
    intro p hp
    obtain ⟨-, -, hc⟩ := h2 p (basename p) (h4 p hp)
    exact hc
  have hwalk_s : lookupE (collectEntries C (stripReserved P) initState).1
      "suffix" = none :=
    lookupE_eq_none_of_not_mem_keys (by
      rw [keysE_collectEntries]
      exact not_mem_keysE_stripReserved (by simp [reservedKeys]) P)
  have hwalk_rs : lookupE (collectEntries C (stripReserved P) initState).1
      "results_suffix" = none :=
    lookupE_eq_none_of_not_mem_keys (by
      rw [keysE_collectEntries]
      exact not_mem_keysE_stripReserved (by simp [reservedKeys]) P)
  have hargs : (collect_parameters C P).args =
      appendE (collectEntries C (stripReserved P) initState).1
        (ofPairs (reservedPairs P)) := by
    rw [collect_parameters_eq]
    exact foldl_reservedPairs P _ hwalk_s hwalk_rs
  refine ⟨?_, hstaged⟩
  have hpoint : ∀ s ∈ stringsE (stripReserved P),
      getIfUri C.fs (collect_parameters C P) inF (basename s) =
        pjoin inF (basename s) := by
    intro s hsS
    obtain ⟨-, -, hb1, hb2, hb3, hb4⟩ := hgood s hsS
    refine getIfUri_staged C.fs _ inF hb1 hb4 hb2 hb3 ?_
    have := hstaged s hsS
    rw [show (collect_parameters C P).staged =
      (collectEntries C (stripReserved P) initState).2.staged from rfl]
    rw [this]
    rfl
  have hrw : mapStringsE (getIfUri C.fs (collect_parameters C P) inF)
      (collect_parameters C P).args =
      appendE
        (mapStringsE (fun s => pjoin inF (basename s)) (stripReserved P))
        (ofPairs (reservedPairs P)) := by
    rw [hargs, mapStringsE_appendE,
      mapStringsE_reservedPairs C.fs _ inF P hs hrs, h1, mapStringsE_comp]
    rw [mapStringsE_congr
      (fun s => getIfUri C.fs (collect_parameters C P) inF (basename s))
      (fun s => pjoin inF (basename s)) (stripReserved P)
      (fun s hsS => hpoint s hsS)]
  have hwd : lookupE (mapStringsE
      (getIfUri C.fs (collect_parameters C P) inF)
      (collect_parameters C P).args) "workspace_dir" = none := by
    rw [hrw, lookupE_appendE]
    rw [lookupE_eq_none_of_not_mem_keys (by
      rw [keysE_mapStringsE]
      exact not_mem_keysE_stripReserved (by simp [reservedKeys]) P)]
    exact lookupE_reservedPairs_wd P
  show setE (mapStringsE (getIfUri C.fs (collect_parameters C P) inF)
      (collect_parameters C P).args) "workspace_dir" (.vstr W) = _
  rw [setE_of_lookupE_none _ _ _ hwd, hrw, appendE_assoc]

/-- C1 (counterexample): for the ParameterSet referencing the two
existing files `/a/x.txt` (bytes `[1]`) and `/b/x.txt` (bytes `[2]`),
which share the basename `x.txt`, extraction rewrites both entries to the
single staged path `/inp/x.txt`, whose bytes are those of the second file
— so the entry `f1` does not resolve to a byte-identical copy of its
original `/a/x.txt`, refuting the round-trip claim as stated. -/
theorem C1_counterexample :
    lookupE (extract_parameters_archive c1xFS "/W"
        (collect_parameters c1xCtx c1xP) "/inp") "f1" =
      some (.vstr "/inp/x.txt") ∧
    lookupE (extract_parameters_archive c1xFS "/W"
        (collect_parameters c1xCtx c1xP) "/inp") "f2" =
      some (.vstr "/inp/x.txt") ∧
    alookup (collect_parameters c1xCtx c1xP).staged "x.txt" = some [2] ∧
    c1xFS.content "/a/x.txt" = [1] ∧
    ([2] : Bytes) ≠ ([1] : Bytes) :=
  ⟨rfl, rfl, rfl, rfl, by decide⟩

/-- C1 (witness): the amended round-trip theorem applied to a concrete
two-file ParameterSet with a nested dictionary and reserved keys. -/
theorem C1_roundtrip_witness :
    ((∀ p ∈ stringsE (stripReserved c1wP), GoodPath c1wCtx p) ∧
     (∀ p ∈ stringsE (stripReserved c1wP), ∀ q ∈ stringsE (stripReserved c1wP),
       basename p = basename q → p = q) ∧
     ReservedOk (lookupE c1wP "suffix") ∧
     ReservedOk (lookupE c1wP "results_suffix")) ∧
    (extract_parameters_archive c1wCtx.fs "/fresh/ws"
        (collect_parameters c1wCtx c1wP) "/inputs" =
      appendE
        (mapStringsE (fun s => pjoin "/inputs" (basename s))
          (stripReserved c1wP))
        (appendE (ofPairs (reservedPairs c1wP))
          (.cons "workspace_dir" (.vstr "/fresh/ws") .nil)) ∧
     ∀ p ∈ stringsE (stripReserved c1wP),
       alookup (collect_parameters c1wCtx c1wP).staged (basename p) =
         some (c1wCtx.fs.content p)) :=
  ⟨⟨by decide, by decide, by decide, by decide⟩,
   C1_roundtrip_amended c1wCtx c1wP "/fresh/ws" "/inputs"
     (by decide) (by decide) (by decide) (by decide)⟩

/-! ## Reserved keys (C7) and basename collisions (C10) -/

theorem collect_args_append (C : CollectCtx) (P : Entries) :
    (collect_parameters C P).args =
      appendE (collectEntries C (stripReserved P) initState).1
        (ofPairs (reservedPairs P)) := by
  rw [collect_parameters_eq]
  exact foldl_reservedPairs P _
    (lookupE_eq_none_of_not_mem_keys (by
      rw [keysE_collectEntries]
      exact not_mem_keysE_stripReserved (by simp [reservedKeys]) P))
    (lookupE_eq_none_of_not_mem_keys (by
      rw [keysE_collectEntries]
      exact not_mem_keysE_stripReserved (by simp [reservedKeys]) P))

theorem lookupE_reservedPairs_suffix (P : Entries) :
    lookupE (ofPairs (reservedPairs P)) "suffix" = lookupE P "suffix" := by
  unfold reservedPairs
  cases h1 : lookupE P "suffix" <;> cases h2 : lookupE P "results_suffix" <;>
    simp [ofPairs, lookupE]

theorem lookupE_reservedPairs_results (P : Entries) :
    lookupE (ofPairs (reservedPairs P)) "results_suffix" =
      lookupE P "results_suffix" := by
  unfold reservedPairs
  cases h1 : lookupE P "suffix" <;> cases h2 : lookupE P "results_suffix" <;>
    simp [ofPairs, lookupE]

/-- C7 (amended): the reserved keys `workspace_dir`, `suffix` and
`results_suffix` are excluded from the file-discovery walk — archiving a
ParameterSet stages exactly the same files, with the same copy
operations, as archiving the same set with the reserved keys removed —
and the tracked keys `suffix` and `results_suffix` that were present in
the input are restored verbatim in the emitted parameters document; but
`workspace_dir` (whose `restore_key` flag is `False` at line 235) is
dropped, not restored: it is absent from the rewritten tree even when
present in the input. -/
theorem C7_reserved_keys_amended (C : CollectCtx) (P : Entries) :
    (collect_parameters C P).staged =
      (collect_parameters C (stripReserved P)).staged ∧
    (collect_parameters C P).copyLog =
      (collect_parameters C (stripReserved P)).copyLog ∧
    lookupE (collect_parameters C P).args "suffix" = lookupE P "suffix" ∧
    lookupE (collect_parameters C P).args "results_suffix" =
      lookupE P "results_suffix" ∧
    lookupE (collect_parameters C P).args "workspace_dir" = none := by
  have hwalk : ∀ k ∈ reservedKeys,
      lookupE (collectEntries C (stripReserved P) initState).1 k = none := by
    intro k hk
    exact lookupE_eq_none_of_not_mem_keys (by
      rw [keysE_collectEntries]
      exact not_mem_keysE_stripReserved hk P)
  refine ⟨?_, ?_, ?_, ?_, ?_⟩
  · rw [collect_parameters_eq, collect_parameters_eq, stripReserved_idem]
  · rw [collect_parameters_eq, collect_parameters_eq, stripReserved_idem]
  · rw [collect_args_append, lookupE_appendE,
      hwalk "suffix" (by simp [reservedKeys])]
    simp [lookupE_reservedPairs_suffix]
  · rw [collect_args_append, lookupE_appendE,
      hwalk "results_suffix" (by simp [reservedKeys])]
    simp [lookupE_reservedPairs_results]
  · rw [collect_args_append, lookupE_appendE,
      hwalk "workspace_dir" (by simp [reservedKeys])]
    simp [lookupE_reservedPairs_wd]

/-- C7 (counterexample): for the ParameterSet holding
`workspace_dir = /old/ws` and `suffix = _v1`, archiving emits a
parameters document in which `workspace_dir` is absent — the input had
the key, so the claim that every reserved key present in the input is
restored verbatim fails (while `suffix` is indeed restored). -/
theorem C7_counterexample :
    lookupE c7xP "workspace_dir" = some (.vstr "/old/ws") ∧
    lookupE (collect_parameters c7xCtx c7xP).args "workspace_dir" = none ∧
    lookupE (collect_parameters c7xCtx c7xP).args "suffix" =
      some (.vstr "_v1") :=
  ⟨rfl, rfl, rfl⟩

/-- C10: archiving the ParameterSet referencing the two distinct existing
regular files `/one/same.bin` (bytes `[1, 1]`) and `/two/same.bin`
(bytes `[2, 2]`), which share the basename `same.bin`, rewrites both
entries to the same basename string `same.bin`; both files are physically
copied (two copy-log entries), but the staging area retains a single
entry holding only the most recently copied file's bytes — the earlier
staged copy is silently overwritten. -/
theorem C10_basename_collision :
    (collect_parameters c10Ctx c10P).args =
      .cons "first_input" (.vstr "same.bin")
        (.cons "second_input" (.vstr "same.bin") .nil) ∧
    (collect_parameters c10Ctx c10P).staged = [("same.bin", [2, 2])] ∧
    (collect_parameters c10Ctx c10P).copyLog =
      ["/one/same.bin", "/two/same.bin"] ∧
    c10FS.content "/one/same.bin" = [1, 1] ∧
    ([2, 2] : Bytes) ≠ ([1, 1] : Bytes) :=
  ⟨rfl, rfl, rfl, rfl, by decide⟩

/-! ## De-duplication of one tracked path (C2)

The lemmas below follow a single absolute ordinary-file path `p` through
`get_if_file` with no assumption on any other parameter value: other
strings may be plain text, datasets, directories, missing paths, or
files colliding with `p`'s basename.  The only side condition is that no
*other* spelling in the tree has the same `os.path.abspath` as `p` (such
a spelling would be de-duplicated onto its own staged path first). -/

theorem DedupInv_of_aset_ne {p key : String} (st : CollectState)
    (r : Path) (staged' : List (Path × Bytes)) (log' : List Path) (ctr' : Nat)
    (hpk : p ≠ key) (hJ : DedupInv p st) :
    DedupInv p { filesFound := aset st.filesFound key r, staged := staged',
                 copyLog := log', counter := ctr' } := by
  rcases hJ with hn | hb
  · left
    show alookup (aset st.filesFound key r) p = none
    rw [alookup_aset_of_ne _ _ hpk]
    exact hn
  · right
    show alookup (aset st.filesFound key r) p = some (basename p)
    rw [alookup_aset_of_ne _ _ hpk]
    exact hb

theorem getIfFile_dedup_spec (C : CollectCtx) (p : String)
    (hkind : C.fs.kind p = FileKind.plainFile) (habs : isAbs p = true)
    (s : String) (st : CollectState)
    (halias : abspath C.cwd s = p → s = p) (hJ : DedupInv p st) :
    (s = p → (getIfFile C st s).1 = basename p) ∧
    DedupInv p (getIfFile C st s).2 ∧
    (s = p → alookup (getIfFile C st s).2.filesFound p = some (basename p)) ∧
    (s ≠ p → alookup (getIfFile C st s).2.filesFound p =
      alookup st.filesFound p) ∧
    (countOcc p (getIfFile C st s).2.copyLog = countOcc p st.copyLog +
      (if (alookup st.filesFound p).isSome then 0
       else if s = p then 1 else 0)) := by
  by_cases hsp : s = p
  · subst hsp
    cases hff : alookup st.filesFound s with
    | some uri =>
        have hgi : getIfFile C st s = (uri, st) := by
          unfold getIfFile
          rw [abspath_of_isAbs habs, hff]
        have huri : uri = basename s := by
          rcases hJ with hn | hb
          · rw [hn] at hff
            exact Option.noConfusion hff
          · rw [hb] at hff
            injection hff with h
            exact h.symm
        rw [hgi]
        refine ⟨fun _ => huri, hJ, fun _ => ?_, fun h => absurd rfl h, ?_⟩
        · rw [hff, huri]
        · simp [hff]
    | none =>
        have hgi : getIfFile C st s =
            (basename s,
             { filesFound := aset st.filesFound s (basename s),
               staged := aset st.staged (basename s) (C.fs.content s),
               copyLog := st.copyLog ++ [s],
               counter := st.counter }) := by
          unfold getIfFile
          rw [abspath_of_isAbs habs, hff, hkind]
        rw [hgi]
        refine ⟨fun _ => rfl, Or.inr ?_, fun _ => ?_, fun h => absurd rfl h, ?_⟩
        · exact alookup_aset_self _ _ _
        · exact alookup_aset_self _ _ _
        · simp [hff, countOcc_append, countOcc]
  · have hpk : p ≠ abspath C.cwd s := fun h => hsp (halias h.symm)
    have hcount0 : ∀ l : List Path, countOcc p l = countOcc p l +
        (if (alookup st.filesFound p).isSome then 0
         else if s = p then 1 else 0) := by
      intro l
      cases hps : (alookup st.filesFound p).isSome <;> simp [hsp]
    have hcount1 : countOcc p (st.copyLog ++ [s]) = countOcc p st.copyLog +
        (if (alookup st.filesFound p).isSome then 0
         else if s = p then 1 else 0) := by
      cases hps : (alookup st.filesFound p).isSome <;>
        simp [hsp, countOcc_append, countOcc, Ne.symm hsp]
    cases hff : alookup st.filesFound (abspath C.cwd s) with
    | some uri =>
        have hgi : getIfFile C st s = (uri, st) := by
          unfold getIfFile
          rw [hff]
        rw [hgi]
        exact ⟨fun h => absurd h hsp, hJ, fun h => absurd h hsp,
          fun _ => rfl, hcount0 _⟩
    | none =>
        cases hk : C.fs.kind s with
        | raster =>
            have hgi : getIfFile C st s =
                (s, { st with
                        staged := aset st.staged
                          ("data/raster_" ++ Nat.repr st.counter) [],
                        counter := st.counter + 1 }) := by
              unfold getIfFile
              rw [hff, hk]
            rw [hgi]
            exact ⟨fun h => absurd h hsp, hJ, fun h => absurd h hsp,
              fun _ => rfl, hcount0 _⟩
        | vector =>
            have hgi : getIfFile C st s =
                (C.tmp ++ "/" ++ ("data/vector_" ++ Nat.repr st.counter),
                 { filesFound := aset st.filesFound (abspath C.cwd s)
                     (C.tmp ++ "/" ++ ("data/vector_" ++ Nat.repr st.counter)),
                   staged := aset st.staged
                     ("data/vector_" ++ Nat.repr st.counter) (C.fs.content s),
                   copyLog := st.copyLog ++ [s],
                   counter := st.counter + 1 }) := by
              unfold getIfFile
              rw [hff, hk]
            rw [hgi]
            exact ⟨fun h => absurd h hsp,
              DedupInv_of_aset_ne st _ _ _ _ hpk hJ,
              fun h => absurd h hsp,
              fun _ => alookup_aset_of_ne _ _ hpk, hcount1⟩
        | csvVector =>
            have hgi : getIfFile C st s =
                (basename s,
                 { filesFound := aset st.filesFound (abspath C.cwd s)
                     (basename s),
                   staged := aset st.staged (basename s) (C.fs.content s),
                   copyLog := st.copyLog ++ [s],
                   counter := st.counter }) := by
              unfold getIfFile
              rw [hff, hk]
            rw [hgi]
            exact ⟨fun h => absurd h hsp,
              DedupInv_of_aset_ne st _ _ _ _ hpk hJ,
              fun h => absurd h hsp,
              fun _ => alookup_aset_of_ne _ _ hpk, hcount1⟩
        | plainFile =>
            have hgi : getIfFile C st s =
                (basename s,
                 { filesFound := aset st.filesFound (abspath C.cwd s)
                     (basename s),
                   staged := aset st.staged (basename s) (C.fs.content s),
                   copyLog := st.copyLog ++ [s],
                   counter := st.counter }) := by
              unfold getIfFile
              rw [hff, hk]
            rw [hgi]
            exact ⟨fun h => absurd h hsp,
              DedupInv_of_aset_ne st _ _ _ _ hpk hJ,
              fun h => absurd h hsp,
              fun _ => alookup_aset_of_ne _ _ hpk, hcount1⟩
        | directory =>
            have hgi : getIfFile C st s =
                (C.tmp ++ "/" ++ ("data_" ++ C.randDir (basename s)),
                 { filesFound := aset st.filesFound (abspath C.cwd s)
                     (C.tmp ++ "/" ++ ("data_" ++ C.randDir (basename s))),
                   staged := aset st.staged
                     ("data_" ++ C.randDir (basename s)) (C.fs.content s),
                   copyLog := st.copyLog ++ [s],
                   counter := st.counter }) := by
              unfold getIfFile
              rw [hff, hk]
            rw [hgi]
            exact ⟨fun h => absurd h hsp,
              DedupInv_of_aset_ne st _ _ _ _ hpk hJ,
              fun h => absurd h hsp,
              fun _ => alookup_aset_of_ne _ _ hpk, hcount1⟩
        | missing =>
            have hgi : getIfFile C st s = (s, st) := by
              unfold getIfFile
              rw [hff, hk]
            rw [hgi]
            exact ⟨fun h => absurd h hsp, hJ, fun h => absurd h hsp,
              fun _ => rfl, hcount0 _⟩

/-! The walk-level consequence for one tracked path: with arbitrary other
values, every occurrence of `p` anywhere in the tree is rewritten to its
basename, and `p` is copied exactly once across all its occurrences. -/

mutual
theorem dedupValue_spec (C : CollectCtx) (p : String)
    (hkind : C.fs.kind p = FileKind.plainFile) (habs : isAbs p = true)
    (v : Value) (st : CollectState)
    (halias : ∀ q ∈ stringsV v, abspath C.cwd q = p → q = p)
    (hJ : DedupInv p st) :
    rewroteV p (basename p) v (collectValue C v st).1 = true ∧
    DedupInv p (collectValue C v st).2 ∧
    (p ∈ stringsV v →
      alookup (collectValue C v st).2.filesFound p = some (basename p)) ∧
    (p ∉ stringsV v →
      alookup (collectValue C v st).2.filesFound p =
        alookup st.filesFound p) ∧
    (countOcc p (collectValue C v st).2.copyLog = countOcc p st.copyLog +
      (if (alookup st.filesFound p).isSome then 0
       else if p ∈ stringsV v then 1 else 0)) := by
  cases v with
  | vstr s =>
      obtain ⟨h1, h2, h3, h4, h5⟩ :=
        getIfFile_dedup_spec C p hkind habs s st
          (halias s (by simp [stringsV])) hJ
      have hmem : (p ∈ stringsV (Value.vstr s)) ↔ s = p := by
        simp [stringsV, eq_comm]
      refine ⟨?_, h2, ?_, ?_, ?_⟩
      · by_cases hsp : s = p
        · subst hsp
          simp [collectValue, rewroteV, h1 rfl]
        · simp [collectValue, rewroteV, hsp]
      · intro hp
        exact h3 (hmem.mp hp)
      · intro hp
        exact h4 (fun e => hp (hmem.mpr e))
      · rw [show (collectValue C (Value.vstr s) st).2 = (getIfFile C st s).2
          from rfl, h5]
        by_cases hsp : s = p
        · cases hps : (alookup st.filesFound p).isSome <;>
            simp [hmem, hsp, stringsV]
        · cases hps : (alookup st.filesFound p).isSome <;>
            simp [hmem, hsp, stringsV, Ne.symm hsp]
  | vint n =>
      refine ⟨by simp [collectValue, rewroteV], hJ, ?_, fun _ => rfl, ?_⟩
      · intro hp; simp [stringsV] at hp
      · simp [stringsV, collectValue]
  | vbool b =>
      refine ⟨by simp [collectValue, rewroteV], hJ, ?_, fun _ => rfl, ?_⟩
      · intro hp; simp [stringsV] at hp
      · simp [stringsV, collectValue]
  | vdict es =>
      obtain ⟨h1, h2, h3, h4, h5⟩ :=
        dedupEntries_spec C p hkind habs es st
          (fun q hq => halias q (by simpa [stringsV] using hq)) hJ
      refine ⟨by simp [collectValue, rewroteV, h1], h2, ?_, ?_, ?_⟩
      · intro hp
        exact h3 (by simpa [stringsV] using hp)
      · intro hp
        exact h4 (by simpa [stringsV] using hp)
      · simpa [stringsV] using h5
  | vlist xs =>
      obtain ⟨h1, h2, h3, h4, h5⟩ :=
        dedupItems_spec C p hkind habs xs st
          (fun q hq => halias q (by simpa [stringsV] using hq)) hJ
      refine ⟨by simp [collectValue, rewroteV, h1], h2, ?_, ?_, ?_⟩
      · intro hp
        exact h3 (by simpa [stringsV] using hp)
      · intro hp
        exact h4 (by simpa [stringsV] using hp)
      · simpa [stringsV] using h5

theorem dedupEntries_spec (C : CollectCtx) (p : String)
    (hkind : C.fs.kind p = FileKind.plainFile) (habs : isAbs p = true)
    (es : Entries) (st : CollectState)
    (halias : ∀ q ∈ stringsE es, abspath C.cwd q = p → q = p)
    (hJ : DedupInv p st) :
    rewroteE p (basename p) es (collectEntries C es st).1 = true ∧
    DedupInv p (collectEntries C es st).2 ∧
    (p ∈ stringsE es →
      alookup (collectEntries C es st).2.filesFound p = some (basename p)) ∧
    (p ∉ stringsE es →
      alookup (collectEntries C es st).2.filesFound p =
        alookup st.filesFound p) ∧
    (countOcc p (collectEntries C es st).2.copyLog =
      countOcc p st.copyLog +
      (if (alookup st.filesFound p).isSome then 0
       else if p ∈ stringsE es then 1 else 0)) := by
  cases es with
  | nil =>
      refine ⟨by simp [collectEntries, rewroteE], hJ, ?_, fun _ => rfl, ?_⟩
      · intro hp; simp [stringsE] at hp
      · simp [stringsE, collectEntries]
  | cons k v rest =>
      obtain ⟨h1, h2, h3, h4, h5⟩ :=
        dedupValue_spec C p hkind habs v st
          (fun q hq => halias q (by simp [stringsE, hq])) hJ
      obtain ⟨g1, g2, g3, g4, g5⟩ :=
        dedupEntries_spec C p hkind habs rest (collectValue C v st).2
          (fun q hq => halias q (by simp [stringsE, hq])) h2
      simp only [collectEntries]
      refine ⟨by simp [rewroteE, h1, g1], g2, ?_, ?_, ?_⟩
      · intro hp
        rcases List.mem_append.mp (by simpa [stringsE] using hp) with hv | hr
        · by_cases hrr : p ∈ stringsE rest
          · exact g3 hrr
          · rw [g4 hrr]
            exact h3 hv
        · exact g3 hr
      · intro hp
        simp [stringsE] at hp
        rw [g4 hp.2, h4 hp.1]
      · rw [g5, h5]
        cases hst : alookup st.filesFound p with
        | some w =>
            have hmid : (alookup (collectValue C v st).2.filesFound p).isSome =
                true := by
              by_cases hv : p ∈ stringsV v
              · rw [h3 hv]; rfl
              · rw [h4 hv, hst]; rfl
            simp [hmid]
        | none =>
            by_cases hv : p ∈ stringsV v
            · have hmid :
                  (alookup (collectValue C v st).2.filesFound p).isSome =
                    true := by
                rw [h3 hv]; rfl
              simp [hmid, hv, stringsE]
            · have hmid : alookup (collectValue C v st).2.filesFound p =
                  none := by
                rw [h4 hv]; exact hst
              simp [hmid, hv, stringsE]

theorem dedupItems_spec (C : CollectCtx) (p : String)
    (hkind : C.fs.kind p = FileKind.plainFile) (habs : isAbs p = true)
    (xs : Items) (st : CollectState)
    (halias : ∀ q ∈ stringsI xs, abspath C.cwd q = p → q = p)
    (hJ : DedupInv p st) :
    rewroteI p (basename p) xs (collectItems C xs st).1 = true ∧
    DedupInv p (collectItems C xs st).2 ∧
    (p ∈ stringsI xs →
      alookup (collectItems C xs st).2.filesFound p = some (basename p)) ∧
    (p ∉ stringsI xs →
      alookup (collectItems C xs st).2.filesFound p =
        alookup st.filesFound p) ∧
    (countOcc p (collectItems C xs st).2.copyLog =
      countOcc p st.copyLog +
      (if (alookup st.filesFound p).isSome then 0
       else if p ∈ stringsI xs then 1 else 0)) := by
  cases xs with
  | nil =>
      refine ⟨by simp [collectItems, rewroteI], hJ, ?_, fun _ => rfl, ?_⟩
      · intro hp; simp [stringsI] at hp
      · simp [stringsI, collectItems]
  | cons v rest =>
      obtain ⟨h1, h2, h3, h4, h5⟩ :=
        dedupValue_spec C p hkind habs v st
          (fun q hq => halias q (by simp [stringsI, hq])) hJ
      obtain ⟨g1, g2, g3, g4, g5⟩ :=
        dedupItems_spec C p hkind habs rest (collectValue C v st).2
          (fun q hq => halias q (by simp [stringsI, hq])) h2
      simp only [collectItems]
      refine ⟨by simp [rewroteI, h1, g1], g2, ?_, ?_, ?_⟩
      · intro hp
        rcases List.mem_append.mp (by simpa [stringsI] using hp) with hv | hr
        · by_cases hrr : p ∈ stringsI rest
          · exact g3 hrr
          · rw [g4 hrr]
            exact h3 hv
        · exact g3 hr
      · intro hp
        simp [stringsI] at hp
        rw [g4 hp.2, h4 hp.1]
      · rw [g5, h5]
        cases hst : alookup st.filesFound p with
        | some w =>
            have hmid : (alookup (collectValue C v st).2.filesFound p).isSome =
                true := by
              by_cases hv : p ∈ stringsV v
              · rw [h3 hv]; rfl
              · rw [h4 hv, hst]; rfl
            simp [hmid]
        | none =>
            by_cases hv : p ∈ stringsV v
            · have hmid :
                  (alookup (collectValue C v st).2.filesFound p).isSome =
                    true := by
                rw [h3 hv]; rfl
              simp [hmid, hv, stringsI]
            · have hmid : alookup (collectValue C v st).2.filesFound p =
                  none := by
                rw [h4 hv]; exact hst
              simp [hmid, hv, stringsI]
end

theorem listIsPrefixOf_self : ∀ l : List Char, l.isPrefixOf l = true := by
  intro l
  induction l with
  | nil => rfl
  | cons c cs ih => simp [List.isPrefixOf, ih]

theorem strBeginsWith_self (s : String) : strBeginsWith s s = true :=
  listIsPrefixOf_self s.data

/-- The resolution action on a nonempty token, written out. -/
theorem selectModel_eq_of_ne (t : String) (ht : t ≠ "") :
    selectModel t =
      (if (list_models.filter (fun x => strBeginsWith x t)).length = 1 then
        .selected ((list_models.filter (fun x => strBeginsWith x t)).headD "")
      else if (list_models.filter (fun x => x = t)).length = 1 then
        .selected ((list_models.filter (fun x => x = t)).headD "")
      else
        match aliasTarget t with
        | some m => .selected m
        | none =>
            if (list_models.filter (fun x => strBeginsWith x t)).length = 0
            then .unknownModel t
            else .ambiguousModel
              (list_models.filter (fun x => strBeginsWith x t))) := by
  unfold selectModel
  rw [if_neg ht]

/-- C3: for every nonempty model token the resolution order is: the
unique identifier having the token as a prefix when exactly one exists;
otherwise the unique exact identifier match; otherwise the alias target
when the token is a known alias; when none apply, an unknown-model
failure naming the token if there were zero prefix matches, and otherwise
(multiple prefix matches, no exact or alias match) an ambiguous-model
failure listing all prefix matches.  Concretely, `cbc` resolves to
`coastal_blue_carbon` via its alias, and
`coastal_blue_carbon_preprocessor` resolves to that exact identifier. -/
theorem C3_model_resolution (t : String) (ht : t ≠ "") :
    (∀ m, list_models.filter (fun x => strBeginsWith x t) = [m] →
      selectModel t = .selected m) ∧
    ((list_models.filter (fun x => strBeginsWith x t)).length ≠ 1 →
      list_models.filter (fun x => x = t) = [t] →
      selectModel t = .selected t) ∧
    (∀ m, (list_models.filter (fun x => strBeginsWith x t)).length ≠ 1 →
      (list_models.filter (fun x => x = t)).length ≠ 1 →
      aliasTarget t = some m → selectModel t = .selected m) ∧
    (list_models.filter (fun x => strBeginsWith x t) = [] →
      aliasTarget t = none → selectModel t = .unknownModel t) ∧
    (2 ≤ (list_models.filter (fun x => strBeginsWith x t)).length →
      (list_models.filter (fun x => x = t)).length ≠ 1 →
      aliasTarget t = none →
      selectModel t =
        .ambiguousModel (list_models.filter (fun x => strBeginsWith x t))) ∧
    selectModel "cbc" = .selected "coastal_blue_carbon" ∧
    selectModel "coastal_blue_carbon_preprocessor" =
      .selected "coastal_blue_carbon_preprocessor" := by
  refine ⟨?_, ?_, ?_, ?_, ?_, by rfl, by rfl⟩
  · intro m hm
    rw [selectModel_eq_of_ne t ht, hm]
    simp
  · intro hlen hex
    rw [selectModel_eq_of_ne t ht, if_neg hlen, hex]
    simp
  · intro m hlen hexlen halias
    rw [selectModel_eq_of_ne t ht, if_neg hlen, if_neg hexlen, halias]
  · intro hmz halias
    have hex : list_models.filter (fun x => x = t) = [] := by
      cases hcase : list_models.filter (fun x => x = t) with
      | nil => rfl
      | cons x xs =>
          exfalso
          have hx : x ∈ list_models.filter (fun x => x = t) := by
            rw [hcase]; simp
          rw [List.mem_filter] at hx
          have hxt : x = t := by simpa using hx.2
          subst hxt
          have hmem : x ∈ list_models.filter (fun y => strBeginsWith y x) := by
            rw [List.mem_filter]
            exact ⟨hx.1, strBeginsWith_self x⟩
          rw [hmz] at hmem
          simp at hmem
    rw [selectModel_eq_of_ne t ht, hmz, hex, halias]
    simp
  · intro hlen hexlen halias
    rw [selectModel_eq_of_ne t ht,
      if_neg (by omega : ¬(list_models.filter
        (fun x => strBeginsWith x t)).length = 1),
      if_neg hexlen, halias]
    rw [if_neg (by omega)]

/-- C3 (witness): the resolution theorem applied at the token `cbc`. -/
theorem C3_model_resolution_witness :
    ("cbc" ≠ "") ∧ selectModel "cbc" = .selected "coastal_blue_carbon" :=
  ⟨by decide, (C3_model_resolution "cbc" (by decide)).2.2.2.2.2.1⟩

/-! ## Headless dispatch (C4, C5, C6, C8, C9) -/

/-- The validation step always takes the `AttributeError` path: the flag
parsed into `args.validate` is constantly true and the attribute lookup
on the pyname string constantly fails, so the only validation event in
any run is the missing-validation warning. -/
theorem validationEvents_eq (args : CliArgs) (psArgs : Entries) :
    validationEvents args psArgs =
      [RunEvent.loggedMissingValidateWarning] := rfl

theorem afterWorkspace_events (env : CliEnv) (args : CliArgs)
    (psArgs : Entries) (cw : Option String) (evs : List RunEvent) :
    (afterWorkspace env args psArgs cw evs).events =
        evs ++ [RunEvent.loggedMissingValidateWarning] ∨
    (afterWorkspace env args psArgs cw evs).events =
        evs ++ [RunEvent.loggedMissingValidateWarning,
                RunEvent.calledExecute] := by
  unfold afterWorkspace finishExecute
  simp only [validationEvents_eq]
  split
  · split
    · left; simp
    · split
      · left; simp
      · right; simp
  · right; simp

theorem not_mem_afterWorkspace_events (x : RunEvent) (env : CliEnv)
    (args : CliArgs) (psArgs : Entries) (cw : Option String)
    (evs : List RunEvent) (h1 : x ∉ evs)
    (h2 : x ≠ RunEvent.loggedMissingValidateWarning)
    (h3 : x ≠ RunEvent.calledExecute) :
    x ∉ (afterWorkspace env args psArgs cw evs).events := by
  rcases afterWorkspace_events env args psArgs cw evs with h | h <;>
    simp [h, h1, h2, h3]

/-- No branch of a run ever emits the `calledValidate` event. -/
theorem mainRun_validate_not_called (env : CliEnv) (args : CliArgs) :
    RunEvent.calledValidate ∉ (mainRun env args).events := by
  unfold mainRun
  split
  · simp
  · split
    · split
      · simp
      · split
        · simp
        · simp
        · split
          · exact not_mem_afterWorkspace_events
              RunEvent.calledValidate env args _ _ _
              (by simp) (by simp) (by simp)
          · split
            · exact not_mem_afterWorkspace_events
                RunEvent.calledValidate env args _ _ _
                (by simp) (by simp) (by simp)
            · simp
    · simp

/-- C4: the claim that a headless run (without the no-validate flag)
calls the resolved model's `validate(args)` before `execute` fails on the
code: `getattr(target_mod, 'validate')` at cli.py line 451 receives the
pyname *string* bound at line 422, not the imported module, so the lookup
raises `AttributeError` in every run, the missing-validation warning is
logged, and the module's own `validate` is never invoked — here shown
both for every environment and argument vector, and concretely for a run
whose model module does define `validate` and which still proceeds to
`execute` with only the missing-validation warning logged. -/
theorem C4_validate_never_called :
    (∀ env args, RunEvent.calledValidate ∉ (mainRun env args).events) ∧
    c4Env.modelValidate = some c4Fn ∧
    c4Args.noValidateGiven = false ∧
    (mainRun c4Env c4Args).events =
      [RunEvent.importedModel "natcap.invest.carbon",
       RunEvent.readParamSet (some "scen.json"),
       RunEvent.loggedMissingValidateWarning,
       RunEvent.calledExecute] ∧
    (mainRun c4Env c4Args).outcome = .finished :=
  ⟨mainRun_validate_not_called, rfl, rfl, rfl, rfl⟩

/-- C9: whenever the GUI toolkit cannot be imported, `main` returns exit
code 3 — even for a headless run (the arguments are arbitrary, so in
particular headless ones) — and it does so before the model module is
imported or executed: the run has no events at all. -/
theorem C9_ui_import_guard (env : CliEnv) (args : CliArgs)
    (h : env.uiImportable = false) :
    (mainRun env args).outcome = .exited 3 "Error: ui not installed" ∧
    (mainRun env args).events = [] ∧
    (∀ pn, RunEvent.importedModel pn ∉ (mainRun env args).events) ∧
    RunEvent.calledExecute ∉ (mainRun env args).events := by
  unfold mainRun
  rw [if_pos h]
  simp

/-- C9 (witness): the guard applied to a concrete headless invocation
whose environment lacks the UI dependency. -/
theorem C9_ui_import_guard_witness :
    (c9Env.uiImportable = false ∧ c9Args.headless = true) ∧
    ((mainRun c9Env c9Args).outcome = .exited 3 "Error: ui not installed" ∧
     (mainRun c9Env c9Args).events = [] ∧
     (∀ pn, RunEvent.importedModel pn ∉ (mainRun c9Env c9Args).events) ∧
     RunEvent.calledExecute ∉ (mainRun c9Env c9Args).events) :=
  ⟨⟨rfl, rfl⟩, C9_ui_import_guard c9Env c9Args rfl⟩

/-- C6: a headless run whose loaded ParameterSet has no `workspace_dir`
key and whose command line gave no workspace exits with code 3 and the
descriptive message, and neither the model's execute nor any validation
of it ever runs. -/
theorem C6_missing_workspace (env : CliEnv) (args : CliArgs) (meta : UIMeta)
    (ps : ParamSet)
    (hui : env.uiImportable = true) (hh : args.headless = true)
    (hm : alookup modelUIs args.model = some meta)
    (hread : read_parameter_set env args.scenario = .ok ps)
    (hw : args.workspace = none)
    (hwd : lookupE ps.args "workspace_dir" = none) :
    (mainRun env args).outcome = .exited 3
      "Workspace not defined. Use --workspace to specify or add a workspace_dir parameter to your scenario." ∧
    RunEvent.calledExecute ∉ (mainRun env args).events ∧
    RunEvent.calledValidate ∉ (mainRun env args).events := by
  unfold mainRun
  rw [if_neg (by simp [hui]), if_pos hh, hm, hread, hw]
  dsimp only
  rw [hwd]
  simp

/-- C6 (witness): the missing-workspace exit applied to a concrete
headless run of the `carbon` model. -/
theorem C6_missing_workspace_witness :
    (c6Env.uiImportable = true ∧ c6Args.headless = true ∧
     c6Args.workspace = none ∧ lookupE c6Ps.args "workspace_dir" = none) ∧
    ((mainRun c6Env c6Args).outcome = .exited 3
      "Workspace not defined. Use --workspace to specify or add a workspace_dir parameter to your scenario." ∧
     RunEvent.calledExecute ∉ (mainRun c6Env c6Args).events ∧
     RunEvent.calledValidate ∉ (mainRun c6Env c6Args).events) :=
  ⟨⟨rfl, rfl, rfl, rfl⟩,
   C6_missing_workspace c6Env c6Args
     ⟨"natcap.invest.carbon", some "carbon.Carbon", []⟩ c6Ps
     rfl rfl rfl rfl rfl rfl⟩

/-- C8: every headless run (with the UI dependency importable and a
catalogued model) loads the ParameterSet by calling
`scenarios.read_parameter_set` on the user-supplied scenario reference;
and when no scenario reference is supplied the run fails with the
explicit `NotFound` condition of the parameter-set reader — not an
unexplained crash — before the model's execute is ever invoked. -/
theorem C8_paramset_loading (env : CliEnv) (args : CliArgs) (meta : UIMeta)
    (hui : env.uiImportable = true) (hh : args.headless = true)
    (hm : alookup modelUIs args.model = some meta) :
    RunEvent.readParamSet args.scenario ∈ (mainRun env args).events ∧
    (args.scenario = none →
      (mainRun env args).outcome = .failed "NotFound: scenario parameter set" ∧
      RunEvent.calledExecute ∉ (mainRun env args).events) := by
  constructor
  · unfold mainRun
    rw [if_neg (by simp [hui]), if_pos hh, hm]
    dsimp only
    split
    · simp
    · simp
    · rename_i ps heq
      split
      · rename_i w hw
        rcases afterWorkspace_events env args
            (setE ps.args "workspace_dir" (.vstr (abspath env.cwd w))) (some w)
            [RunEvent.importedModel meta.pyname,
             RunEvent.readParamSet args.scenario] with hev | hev <;> simp [hev]
      · rename_i hw
        split
        · rename_i v hv
          rcases afterWorkspace_events env args ps.args none
              [RunEvent.importedModel meta.pyname,
               RunEvent.readParamSet args.scenario] with hev | hev <;> simp [hev]
        · simp
  · intro hsc
    unfold mainRun
    rw [if_neg (by simp [hui]), if_pos hh, hm, hsc,
      show read_parameter_set env none =
        Except.error ParamSetLoadError.notFound from rfl]
    simp

/-- C8 (witness): the loading theorem applied to a concrete headless run
of the `pollination` model with no scenario reference supplied. -/
theorem C8_paramset_loading_witness :
    (c8Env.uiImportable = true ∧ c8Args.headless = true ∧
     c8Args.scenario = none) ∧
    (RunEvent.readParamSet c8Args.scenario ∈ (mainRun c8Env c8Args).events ∧
     (mainRun c8Env c8Args).outcome =
       .failed "NotFound: scenario parameter set" ∧
     RunEvent.calledExecute ∉ (mainRun c8Env c8Args).events) :=
  ⟨⟨rfl, rfl, rfl⟩,
   ⟨(C8_paramset_loading c8Env c8Args
       ⟨"natcap.invest.pollination", some "pollination.Pollination", []⟩
       rfl rfl rfl).1,
    ((C8_paramset_loading c8Env c8Args
       ⟨"natcap.invest.pollination", some "pollination.Pollination", []⟩
       rfl rfl rfl).2 rfl).1,
    ((C8_paramset_loading c8Env c8Args
       ⟨"natcap.invest.pollination", some "pollination.Pollination", []⟩
       rfl rfl rfl).2 rfl).2⟩⟩

/-- C5: the claim that a headless run with an existing non-empty resolved
workspace, no overwrite flag, and a non-interactive terminal exits with
code 2 without invoking execute fails on the code: the overwrite check at
cli.py lines 462-469 tests `args.workspace` — the raw command-line value,
defaulted to the *current directory* when absent — not the workspace
resolved from the ParameterSet.  Here the ParameterSet resolves the
workspace to the existing non-empty `/data/ws`, no `--workspace` flag is
given, stdout is not a terminal and `--overwrite` is absent, yet the run
finishes and invokes execute because the empty current directory passes
the check. -/
theorem C5_overwrite_check_bug :
    c5Env.pathExists "/data/ws" = true ∧
    c5Env.listdirNonempty "/data/ws" = true ∧
    c5Env.stdoutIsTty = false ∧
    c5Args.overwrite = false ∧
    c5Args.workspace = none ∧
    c5Env.scenarioFile "scen.json" = some c5Ps ∧
    lookupE c5Ps.args "workspace_dir" = some (.vstr "/data/ws") ∧
    (mainRun c5Env c5Args).outcome = .finished ∧
    RunEvent.calledExecute ∈ (mainRun c5Env c5Args).events :=
  ⟨rfl, rfl, rfl, rfl, rfl, rfl, rfl, rfl, by decide⟩

end Invest
